import Mathlib

/-!
Verification of the smtp-integrator-operator repository.

The repository holds several point-in-time snapshots of the same charm:

* `lib/charms/smtp_integrator/v0/smtp.py` is an early library snapshot
  (LIBPATCH 1): its `SmtpRelationData` has no `password_id` field, its
  `to_relation_data` publishes the plaintext password, and its
  `SmtpRequires._on_relation_changed` emits for any non-empty data-bag.
  It is embedded below in namespace `Smtp.LibV1`.
* `src/charm.py` is a newer charm snapshot: it imports
  `smtp.LEGACY_RELATION_NAME` and constructs `SmtpRelationData` with a
  `password_id` field, neither of which exists in the library snapshot
  above; the matching newer library file is not among the repository
  files given, only its tests (`tests/unit/test_library_smtp.py`) and its
  caller (`src/charm.py`) are.  The parts of that newer library the
  charm needs are therefore modelled from the specification, in
  namespace `Smtp.Lib`, and each such definition says so in its doc
  comment.
* `src/charm_state.py` is an older configuration module (not imported by
  `src/charm.py`); its `SmtpIntegratorConfig` is embedded in namespace
  `Smtp.CharmStateV`.

The charm logic of `src/charm.py` (reconciliation, peer secret handling,
leadership gating) is embedded as a functional state machine in
namespace `Smtp`.
-/

namespace Smtp

/-- A relation data-bag: a string-keyed mapping, absent keys are `none`.
Embeds the `ops` relation data-bag that `relation.data[app]` exposes. -/
abbrev Bag := String → Option String

/-- A concrete string-to-string mapping as Python builds one with a dict
literal: an association list with the keys in insertion order. -/
abbrev Mapping := List (String × String)

/-- Lookup in a `Mapping`, first binding wins (the mappings the code
builds never repeat a key). -/
def mlookup : Mapping → String → Option String
  | [], _ => none
  | (k, v) :: rest, key => if k = key then some v else mlookup rest key

/-- Write one key of a `Bag`. -/
def fnUpdate (bag : Bag) (k v : String) : Bag :=
  fun x => if x = k then some v else bag x

/-- Embeds Python `dict.update`: every key of `m` overrides `bag`, every
other key of `bag` keeps its value (`smtp.py`,
`SmtpProvides.update_relation_data` line 285). -/
def dictUpdate (bag : Bag) (m : Mapping) : Bag :=
  fun k =>
    match mlookup m k with
    | some v => some v
    | none => bag k

/-- Python truthiness of an optional string: `None` and `""` are falsy. -/
def optTruthy : Option String → Bool
  | none => false
  | some s => !(s = "")

/-- Embeds the `AuthType` enum of the smtp library (`smtp.py` lines
95-106): values none, not_provided, plain. -/
inductive AuthType
  | none
  | not_provided
  | plain
deriving DecidableEq, Repr

/-- The `.value` string of an `AuthType` member. -/
def AuthType.value : AuthType → String
  | AuthType.none => "none"
  | AuthType.not_provided => "not_provided"
  | AuthType.plain => "plain"

/-- Pydantic coercion of a string into the `AuthType` enum. -/
def AuthType.parse : String → Option AuthType
  | "none" => some AuthType.none
  | "not_provided" => some AuthType.not_provided
  | "plain" => some AuthType.plain
  | _ => Option.none

/-- Embeds the `TransportSecurity` enum of the smtp library (`smtp.py`
lines 81-92): values none, starttls, tls. -/
inductive TransportSecurity
  | none
  | starttls
  | tls
deriving DecidableEq, Repr

/-- The `.value` string of a `TransportSecurity` member. -/
def TransportSecurity.value : TransportSecurity → String
  | TransportSecurity.none => "none"
  | TransportSecurity.starttls => "starttls"
  | TransportSecurity.tls => "tls"

/-- Pydantic coercion of a string into the `TransportSecurity` enum. -/
def TransportSecurity.parse : String → Option TransportSecurity
  | "none" => some TransportSecurity.none
  | "starttls" => some TransportSecurity.starttls
  | "tls" => some TransportSecurity.tls
  | _ => Option.none

namespace LibV1

/-- Embeds `SmtpRelationData` of `lib/charms/smtp_integrator/v0/smtp.py`
(lines 109-128), the library snapshot present among the repository
files: host (non-empty, required), port (any int, required), optional
user, password and domain, required auth_type and transport_security.
There is no `password_id` field and no port range constraint in this
snapshot. -/
structure SmtpRelationData where
  host : String
  port : Int
  user : Option String
  password : Option String
  auth_type : AuthType
  transport_security : TransportSecurity
  domain : Option String
deriving DecidableEq, Repr

/-- Pydantic construction of `LibV1.SmtpRelationData`: collects the
names of the fields that fail validation (`host` must be a present
non-empty string by `Field(..., min_length=1)`; `port` must be present;
the enums must parse); succeeds exactly when that list is empty. -/
def SmtpRelationData.build (host : Option String) (port : Option Int)
    (user : Option String) (password : Option String)
    (auth_type : Option String) (transport_security : Option String)
    (domain : Option String) : Except (List String) SmtpRelationData :=
  let hostErrs : List String :=
    match host with
    | some h => if h = "" then ["host"] else []
    | none => ["host"]
  let portErrs : List String := match port with | some _ => [] | none => ["port"]
  let authErrs : List String :=
    match auth_type with
    | some a => if (AuthType.parse a).isSome then [] else ["auth_type"]
    | none => ["auth_type"]
  let tsErrs : List String :=
    match transport_security with
    | some t => if (TransportSecurity.parse t).isSome then [] else ["transport_security"]
    | none => ["transport_security"]
  match host, port, auth_type.bind AuthType.parse,
      transport_security.bind TransportSecurity.parse with
  | some h, some p, some a, some t =>
      if h = "" then Except.error (hostErrs ++ portErrs ++ authErrs ++ tsErrs)
      else Except.ok ⟨h, p, user, password, a, t, domain⟩
  | _, _, _, _ => Except.error (hostErrs ++ portErrs ++ authErrs ++ tsErrs)

/-- Embeds `SmtpRelationData.to_relation_data` of the library snapshot
(`smtp.py` lines 130-148): always host, port, auth_type,
transport_security; domain, user and password only when truthy.  The
plaintext password is published whenever set; there is no
`password_id`. -/
def SmtpRelationData.to_relation_data (d : SmtpRelationData) : Mapping :=
  [("host", d.host), ("port", toString d.port),
   ("auth_type", d.auth_type.value),
   ("transport_security", d.transport_security.value)]
  ++ (if optTruthy d.domain then [("domain", d.domain.getD "")] else [])
  ++ (if optTruthy d.user then [("user", d.user.getD "")] else [])
  ++ (if optTruthy d.password then [("password", d.password.getD "")] else [])

/-- Embeds the guard of `SmtpRequires._on_relation_changed` of the
library snapshot (`smtp.py` lines 240-248): the handler emits
`smtp_data_available` exactly when the remote application data-bag is
non-empty (`if event.relation.data[event.relation.app]:`), with no look
at any particular key. -/
def relationChangedEmits (bag : Mapping) : Bool :=
  !bag.isEmpty

end LibV1

namespace CharmStateV

/-- Embeds `SmtpIntegratorConfig` of `src/charm_state.py` (lines 26-45):
host required non-empty, port any required int, user, password and
domain optional, auth_type and transport_security optional enum members.
No port range constraint exists in this snapshot either. -/
structure SmtpIntegratorConfig where
  host : String
  port : Int
  user : Option String
  password : Option String
  auth_type : Option AuthType
  transport_security : Option TransportSecurity
  domain : Option String
deriving DecidableEq, Repr

/-- Pydantic construction of `CharmStateV.SmtpIntegratorConfig`:
succeeds for any int port as long as host is a non-empty string and the
optional enums, when present, parse. -/
def SmtpIntegratorConfig.build (host : Option String) (port : Option Int)
    (user : Option String) (password : Option String)
    (auth_type : Option String) (transport_security : Option String)
    (domain : Option String) : Except (List String) SmtpIntegratorConfig :=
  let authOk : Bool := match auth_type with
    | some s => (AuthType.parse s).isSome
    | none => true
  let tsOk : Bool := match transport_security with
    | some s => (TransportSecurity.parse s).isSome
    | none => true
  match host with
  | none => Except.error ["host"]
  | some h =>
    if h = "" then Except.error ["host"]
    else match port with
    | none => Except.error ["port"]
    | some p =>
      if authOk && tsOk
      then Except.ok ⟨h, p, user, password, auth_type.bind AuthType.parse,
        transport_security.bind TransportSecurity.parse, domain⟩
      else Except.error
        ((if authOk then [] else ["auth_type"])
          ++ (if tsOk then [] else ["transport_security"]))

end CharmStateV

namespace Lib

/-- Modelled from the spec: the `SmtpRelationData` bundle of the newer
smtp library that `src/charm.py` imports (it passes a `password_id`
field and reads `smtp.LEGACY_RELATION_NAME`, absent from the library
snapshot under `lib/`); that library file is not among the repository
files given, only its tests and its caller are.  Fields per the spec
data model: host non-empty required; port integer 1-65536 inclusive;
optional user, password, password_ref (key `password_id`) and domain;
auth_type and transport_security enums; skip_tls_verify boolean with
default false (wire key `skip_ssl_verify` per the tests). -/
structure SmtpRelationData where
  host : String
  port : Int
  user : Option String
  password_id : Option String
  password : Option String
  auth_type : AuthType
  transport_security : TransportSecurity
  domain : Option String
  skip_ssl_verify : Bool
deriving DecidableEq, Repr

/-- Modelled from the spec: the field names pydantic reports when the
bundle fails validation, in declaration order ("A bundle that fails any
validation rule is not constructible").  `host` must be a present
non-empty string, `port` a present integer in 1-65536, the enums must
parse. -/
def fieldErrors (host : Option String) (port : Option Int)
    (auth_type : Option String) (transport_security : Option String) : List String :=
  (match host with
   | some h => if h = "" then ["host"] else []
   | none => ["host"])
  ++ (match port with
      | some p => if 1 ≤ p ∧ p ≤ 65536 then [] else ["port"]
      | none => ["port"])
  ++ (match auth_type with
      | some a => if (AuthType.parse a).isSome then [] else ["auth_type"]
      | none => ["auth_type"])
  ++ (match transport_security with
      | some t => if (TransportSecurity.parse t).isSome then [] else ["transport_security"]
      | none => ["transport_security"])

/-- Modelled from the spec: pydantic construction of the newer
`SmtpRelationData`; construction is the sole validation gate, returning
the failing field names on error. -/
def SmtpRelationData.build (host : Option String) (port : Option Int)
    (user : Option String) (password_id : Option String) (password : Option String)
    (auth_type : Option String) (transport_security : Option String)
    (domain : Option String) (skip_ssl_verify : Option Bool) :
    Except (List String) SmtpRelationData :=
  match fieldErrors host port auth_type transport_security with
  | [] =>
    match host, port, auth_type.bind AuthType.parse,
        transport_security.bind TransportSecurity.parse with
    | some ho, some p, some a, some t =>
        Except.ok ⟨ho, p, user, password_id, password, a, t, domain,
          skip_ssl_verify.getD false⟩
    | _, _, _, _ => Except.error (fieldErrors host port auth_type transport_security)
  | e => Except.error e

/-- Modelled from the spec: the wire encoder of the newer library.  The
legacy form always includes host, port (decimal string), auth_type,
transport_security and the boolean flag, includes user/password/domain
only if non-empty and never includes `password_ref`; the modern form is
identical except the password is replaced by `password_ref` (key
`password_id`) and `password` is never emitted even if available in
memory.  The two forms coincide in one encoder keyed on whether
`password_id` is populated, which is how `src/charm.py` selects them
(it clears `password_id` before legacy writes) and what
`tests/unit/test_library_smtp.py::test_smtp_relation_data_to_relation_data`
expects. -/
def SmtpRelationData.to_relation_data (d : SmtpRelationData) : Mapping :=
  [("host", d.host), ("port", toString d.port),
   ("auth_type", d.auth_type.value),
   ("transport_security", d.transport_security.value),
   ("skip_ssl_verify", if d.skip_ssl_verify then "True" else "False")]
  ++ (if optTruthy d.domain then [("domain", d.domain.getD "")] else [])
  ++ (if optTruthy d.user then [("user", d.user.getD "")] else [])
  ++ (if optTruthy d.password_id then [("password_id", d.password_id.getD "")]
      else if optTruthy d.password then [("password", d.password.getD "")] else [])

/-- Whitespace as Python `str.strip` removes it. -/
def isSpaceChar (ch : Char) : Bool :=
  ch = ' ' || ch = '\t' || ch = '\n' || ch = '\r'

/-- Strip leading and trailing whitespace from a character list. -/
def trimChars (l : List Char) : List Char :=
  ((l.dropWhile isSpaceChar).reverse.dropWhile isSpaceChar).reverse

/-- Split a character list on commas (a comma-free list is one entry). -/
def splitComma : List Char → List Char → List (List Char)
  | [], acc => [acc.reverse]
  | ch :: rest, acc =>
    if ch = ',' then acc.reverse :: splitComma rest []
    else splitComma rest (ch :: acc)

/-- Strip one layer of surrounding double quotes from a recipients
entry, as the bracket-less quoted form needs. -/
def stripQuotesChars (l : List Char) : List Char :=
  if l.head? = some '"' ∧ l.getLast? = some '"' ∧ 2 ≤ l.length
  then (l.drop 1).dropLast else l

/-- Modelled from the spec: `parse_recipients` of the newer library
(absent from the repository files given; `tests/unit/test_library_smtp.py`
imports it).  Accepted input forms: a comma-separated string
(whitespace-trimmed per entry), a JSON-encoded list of strings, or a
bracket-less comma-separated list of quoted strings; all normalize to
the same ordered list of addresses, and empty or absent input
normalizes to the empty list, never null. -/
def parse_recipients (raw : Option String) : List String :=
  match raw with
  | none => []
  | some s =>
    let t := trimChars s.data
    if t = [] then []
    else
      let inner :=
        if t.head? = some '[' ∧ t.getLast? = some ']' then (t.drop 1).dropLast else t
      ((splitComma inner []).map (fun e => stripQuotesChars (trimChars e))).map
        (fun cs => String.mk cs)

end Lib

/-- A Juju secret as the charm sees one: its current content, how many
content revisions it has gone through, and the relation ids it is
granted to. -/
structure SecretRec where
  content : Mapping
  revisions : Nat
  grants : List Nat
deriving DecidableEq, Repr

/-- The model-level state `src/charm.py` reads and mutates outside of
the relation data-bags: the secret store, a counter for fresh secret
ids, and the peer relation application data-bag (`none` when the
`smtp-peers` relation does not exist yet). -/
structure CoreState where
  secrets : String → Option SecretRec
  nextSecretId : Nat
  peer : Option Bag

/-- One relation of an endpoint: its id and its local application
data-bag (the side this charm writes). -/
structure Relation where
  id : Nat
  bag : Bag

/-- The full charm state: the core plus the `smtp-legacy` and `smtp`
relations. -/
structure CharmState where
  core : CoreState
  legacyRels : List Relation
  smtpRels : List Relation

/-- The charm's environment: leadership (`self.unit.is_leader()`) and
whether the Juju version supports secrets
(`ops.JujuVersion.from_environ().has_secrets`, `src/charm.py` lines
187-194). -/
structure Env where
  isLeader : Bool
  hasSecrets : Bool

/-- The charm configuration mapping (`self.config`), each option absent
or present.  `src/charm.py` reads exactly these keys in
`_generate_smtp_data`. -/
structure Config where
  host : Option String
  port : Option Int
  user : Option String
  password : Option String
  auth_type : Option String
  transport_security : Option String
  domain : Option String
  skip_ssl_verify : Option Bool

/-- The errors `src/charm.py` raises or meets during a reconciliation
pass: `CharmConfigInvalidError`, `NotReadyError`
("waiting for peer relation"), `ops.SecretNotFoundError` out of
`model.get_secret`, and the `AttributeError` Python would raise if
`secret` were `None` where `.grant` is called. -/
inductive CharmError
  | configInvalid (msg : String)
  | notReady (msg : String)
  | secretNotFound (sid : String)
  | attributeOnNone
deriving DecidableEq, Repr

/-- Embeds `_get_peer_data` (`src/charm.py` lines 151-160): the peer
relation application data-bag, or `NotReadyError` when the peer
relation does not exist. -/
def get_peer_data (c : CoreState) : Except CharmError Bag :=
  match c.peer with
  | none => Except.error (CharmError.notReady "waiting for peer relation")
  | some b => Except.ok b

/-- Write one key of the peer relation application data-bag (the
`self._get_peer_data()["secret-id"] = ...` assignment). -/
def setPeerData (c : CoreState) (k v : String) : CoreState :=
  { c with peer := c.peer.map (fun b => fnUpdate b k v) }

/-- Embeds `_get_peer_secret` (`src/charm.py` lines 162-171): `none`
when no truthy `secret-id` is recorded; the recorded secret otherwise;
`SecretNotFoundError` when the recorded id resolves to no secret. -/
def get_peer_secret (c : CoreState) : Except CharmError (Option (String × SecretRec)) :=
  match get_peer_data c with
  | Except.error e => Except.error e
  | Except.ok pd =>
    match pd "secret-id" with
    | none => Except.ok none
    | some sid =>
      if sid = "" then Except.ok none
      else match c.secrets sid with
        | none => Except.error (CharmError.secretNotFound sid)
        | some sec => Except.ok (some (sid, sec))

/-- Embeds `self.app.add_secret(content=content)`: a fresh secret with
one revision and no grants yet; returns its id. -/
def addSecret (c : CoreState) (content : Mapping) : String × CoreState :=
  let sid := "secret-" ++ toString c.nextSecretId
  (sid,
    { c with
      secrets := fun i => if i = sid then some ⟨content, 1, []⟩ else c.secrets i,
      nextSecretId := c.nextSecretId + 1 })

/-- Embeds `secret.set_content(content)`: replaces the content and adds
one revision. -/
def setSecretContent (c : CoreState) (sid : String) (content : Mapping) : CoreState :=
  { c with
    secrets := fun i =>
      if i = sid then
        (c.secrets i).map (fun r => ⟨content, r.revisions + 1, r.grants⟩)
      else c.secrets i }

/-- Embeds `secret.grant(relation)`: adds the relation to the secret's
grant list, a no-op when already granted. -/
def grantSecret (c : CoreState) (sid : String) (rid : Nat) : CoreState :=
  { c with
    secrets := fun i =>
      if i = sid then
        (c.secrets i).map (fun r =>
          ⟨r.content, r.revisions, if rid ∈ r.grants then r.grants else r.grants ++ [rid]⟩)
      else c.secrets i }

/-- Embeds `secret.revoke(relation)`: removes the relation from the
secret's grant list. -/
def revokeSecret (c : CoreState) (sid : String) (rid : Nat) : CoreState :=
  { c with
    secrets := fun i =>
      if i = sid then
        (c.secrets i).map (fun r =>
          ⟨r.content, r.revisions, r.grants.filter (fun x => !(x = rid))⟩)
      else c.secrets i }

/-- Embeds `_ensure_peer_secret` (`src/charm.py` lines 173-185): look up
the recorded peer secret; create one with the desired content when none
is recorded; record its id in the peer data-bag; update the content
only when the stored content differs.  Returns the secret id together
with the state at the point of return (or of the raise). -/
def ensure_peer_secret (content : Mapping) (c : CoreState) :
    Except CharmError String × CoreState :=
  match get_peer_secret c with
  | Except.error e => (Except.error e, c)
  | Except.ok r =>
    let sidCurNext : String × Mapping × CoreState :=
      match r with
      | none => let p := addSecret c content; (p.1, content, p.2)
      | some (sid, sec) => (sid, sec.content, c)
    match sidCurNext with
    | (sid, cur, c1) =>
      let c2 := setPeerData c1 "secret-id" sid
      if cur = content then (Except.ok sid, c2)
      else (Except.ok sid, setSecretContent c2 sid content)

/-- The `" ".join(...)` of the failing field names in
`_generate_smtp_data`'s error message. -/
def joinFields (fields : List String) : String :=
  String.intercalate " " fields

/-- The bundle-construction phase of `_generate_smtp_data` as a function
of the configuration and the password reference alone: pydantic
construction with a `ValidationError` turned into
`CharmConfigInvalidError` naming the failing fields. -/
def bundleResult (cfg : Config) (pid : Option String) :
    Except CharmError Lib.SmtpRelationData :=
  match Lib.SmtpRelationData.build cfg.host cfg.port cfg.user pid cfg.password
      cfg.auth_type cfg.transport_security cfg.domain cfg.skip_ssl_verify with
  | Except.ok d => Except.ok d
  | Except.error fields =>
    Except.error (CharmError.configInvalid ("invalid configuration: " ++ joinFields fields))

/-- Whether `_generate_smtp_data` takes the secret path
(`if password and self._has_secrets():`): a truthy password together
with secret support. -/
def pathTaken (cfg : Config) (env : Env) : Bool :=
  optTruthy cfg.password && env.hasSecrets

/-- The secret content `_generate_smtp_data` maintains:
`{"password": password}`. -/
def pwContent (cfg : Config) : Mapping :=
  [("password", cfg.password.getD "")]

/-- Embeds `_generate_smtp_data` (`src/charm.py` lines 109-137): when a
truthy password is configured and secrets are supported, first ensure
the peer secret with content `{"password": password}` (mutating state
before any validation); then construct the bundle, turning a pydantic
`ValidationError` into `CharmConfigInvalidError`. -/
def generate_smtp_data (cfg : Config) (env : Env) (c : CoreState) :
    Except CharmError Lib.SmtpRelationData × CoreState :=
  if pathTaken cfg env then
    match ensure_peer_secret (pwContent cfg) c with
    | (Except.error e, c1) => (Except.error e, c1)
    | (Except.ok sid, c1) => (bundleResult cfg (some sid), c1)
  else (bundleResult cfg none, c)

/-- The effect of `update_relation_data` on one relation: merge the
mapping into its data-bag when the id matches. -/
def updOne (rid : Nat) (m : Mapping) (r : Relation) : Relation :=
  if r.id = rid then ⟨r.id, dictUpdate r.bag m⟩ else r

/-- Replace the data-bag of every relation with the given id by its
`dict.update` with the mapping (the effect of `update_relation_data` on
the relation list). -/
def updateRelBag (rels : List Relation) (rid : Nat) (m : Mapping) : List Relation :=
  rels.map (updOne rid m)

/-- The mapping `_reconcile_smtp_legacy` writes: the bundle with its
`password_id` cleared (`new_data.password_id = None`), encoded. -/
def legMapping (d : Lib.SmtpRelationData) : Mapping :=
  Lib.SmtpRelationData.to_relation_data
    ⟨d.host, d.port, d.user, none, d.password, d.auth_type, d.transport_security,
      d.domain, d.skip_ssl_verify⟩

/-- Embeds the loop of `_reconcile_smtp_legacy` (`src/charm.py` lines
89-94): for each `smtp-legacy` relation, regenerate the bundle, clear
its `password_id`, and merge the encoding into the relation data-bag.
Returns the error that stopped the loop (if any), the state, and the
log of mappings written. -/
def legacyLoop (cfg : Config) (env : Env) :
    List Nat → CharmState → List (Nat × Mapping) →
    Option CharmError × CharmState × List (Nat × Mapping)
  | [], s, w => (none, s, w)
  | rid :: rest, s, w =>
    match generate_smtp_data cfg env s.core with
    | (Except.error e, c1) => (some e, { s with core := c1 }, w)
    | (Except.ok d, c1) =>
      legacyLoop cfg env rest
        { s with core := c1, legacyRels := updateRelBag s.legacyRels rid (legMapping d) }
        (w ++ [(rid, legMapping d)])

/-- Embeds the loop of `_reconcile_smtp` (`src/charm.py` lines 96-107):
for each `smtp` relation, fail unless secrets are supported, regenerate
the bundle, fetch the recorded peer secret, grant it to the relation
when a `password_id` is published (Python would raise on a missing
secret there), revoke it when no `password_id` is published but a
secret exists, and merge the encoding into the relation data-bag. -/
def smtpLoop (cfg : Config) (env : Env) :
    List Nat → CharmState → List (Nat × Mapping) →
    Option CharmError × CharmState × List (Nat × Mapping)
  | [], s, w => (none, s, w)
  | rid :: rest, s, w =>
    if !env.hasSecrets then
      (some (CharmError.configInvalid "smtp relation is not supported in juju < 3.0.3"), s, w)
    else match generate_smtp_data cfg env s.core with
    | (Except.error e, c1) => (some e, { s with core := c1 }, w)
    | (Except.ok d, c1) =>
      match get_peer_secret c1 with
      | Except.error e => (some e, { s with core := c1 }, w)
      | Except.ok osec =>
        match osec with
        | none =>
          if optTruthy d.password_id then
            (some CharmError.attributeOnNone, { s with core := c1 }, w)
          else
            let m := Lib.SmtpRelationData.to_relation_data d
            smtpLoop cfg env rest
              { s with core := c1, smtpRels := updateRelBag s.smtpRels rid m }
              (w ++ [(rid, m)])
        | some (sid, _) =>
          let c2 := if optTruthy d.password_id then grantSecret c1 sid rid else c1
          let c3 := if !(optTruthy d.password_id) then revokeSecret c2 sid rid else c2
          let m := Lib.SmtpRelationData.to_relation_data d
          smtpLoop cfg env rest
            { s with core := c3, smtpRels := updateRelBag s.smtpRels rid m }
            (w ++ [(rid, m)])

/-- What one reconciliation pass produces: the state at its end (also
at a raise), the error raised if any, and the logs of the mappings
written to `smtp-legacy` and to `smtp` relation data-bags. -/
structure ReconcileResult where
  state : CharmState
  err : Option CharmError
  legacyWrites : List (Nat × Mapping)
  smtpWrites : List (Nat × Mapping)

/-- Embeds `_reconcile` (`src/charm.py` lines 79-87): a no-op for a
non-leader; otherwise one sanity bundle generation (fail fast), then
the `smtp-legacy` loop, then the `smtp` loop. -/
def reconcile (cfg : Config) (env : Env) (s : CharmState) : ReconcileResult :=
  if !env.isLeader then ⟨s, none, [], []⟩
  else
    match generate_smtp_data cfg env s.core with
    | (Except.error e, c1) => ⟨{ s with core := c1 }, some e, [], []⟩
    | (Except.ok _, c1) =>
      let s1 : CharmState := { s with core := c1 }
      match legacyLoop cfg env (s1.legacyRels.map (fun r => r.id)) s1 [] with
      | (some e, s2, w) => ⟨s2, some e, w, []⟩
      | (none, s2, w) =>
        match smtpLoop cfg env (s2.smtpRels.map (fun r => r.id)) s2 [] with
        | (oe, s3, w2) => ⟨s3, oe, w, w2⟩

/-- Embeds `_on_relation_broken` (`src/charm.py` lines 139-149): a
no-op for a non-leader; otherwise revoke the recorded peer secret from
the broken relation when one exists. -/
def on_relation_broken (rid : Nat) (env : Env) (s : CharmState) :
    Option CharmError × CharmState :=
  if !env.isLeader then (none, s)
  else match get_peer_secret s.core with
    | Except.error e => (some e, s)
    | Except.ok none => (none, s)
    | Except.ok (some (sid, _)) => (none, { s with core := revokeSecret s.core sid rid })

/-- The validation errors of one configuration, as the modelled bundle
reports them; note they do not depend on password or password_id. -/
def configErrs (cfg : Config) : List String :=
  Lib.fieldErrors cfg.host cfg.port cfg.auth_type cfg.transport_security

/-- The recorded peer `secret-id`, read off a charm state. -/
def recordedId (s : CharmState) : Option String :=
  match s.core.peer with
  | none => none
  | some b => b "secret-id"

/-- The content of a secret of a charm state. -/
def secretContentAt (s : CharmState) (sid : String) : Option Mapping :=
  (s.core.secrets sid).map (fun r => r.content)

/-- The revision count of a secret of a charm state. -/
def secretRevisionsAt (s : CharmState) (sid : String) : Option Nat :=
  (s.core.secrets sid).map (fun r => r.revisions)

/-- An empty data-bag, for concrete scenarios. -/
def emptyBag : Bag := fun _ => none

/-- An initial charm state with an empty peer data-bag, no secrets yet
and empty relation data-bags with the given ids. -/
def initState (legacy smtp : List Nat) : CharmState :=
  ⟨⟨fun _ => none, 1, some emptyBag⟩,
    legacy.map (fun i => ⟨i, emptyBag⟩), smtp.map (fun i => ⟨i, emptyBag⟩)⟩

/-- A concrete configuration with the host missing, a password set and
the other required fields valid. -/
def cfgNoHost : Config :=
  ⟨none, some 25, none, some "secret123", some "none", some "none", none, none⟩

/-- A concrete minimal valid configuration without a password. -/
def cfgMinimal : Config :=
  ⟨some "smtp.example", some 25, none, none, some "none", some "none", none, none⟩

/-- A concrete full valid configuration with a password. -/
def cfgFull : Config :=
  ⟨some "smtp.example", some 25, some "example_user", some "secret123", some "plain",
    some "tls", some "domain", some false⟩

/-- A concrete peer data-bag recording the secret id `secret-1`. -/
def readyBag : Bag := fnUpdate emptyBag "secret-id" "secret-1"

/-- A concrete state already holding the recorded peer secret for
`cfgFull`'s password, as left behind by an earlier reconciliation
pass: used to exercise re-reconciliation after a config change. -/
def readyState : CharmState :=
  ⟨⟨fun i => if i = "secret-1" then some ⟨[("password", "secret123")], 1, []⟩ else none,
    2, some readyBag⟩, [⟨1, emptyBag⟩], [⟨2, emptyBag⟩]⟩

/-- A concrete state whose single legacy relation data-bag still holds a
previously published `password` key: used to exercise re-reconciliation
after the password configuration has been cleared. -/
def staleState : CharmState :=
  ⟨⟨fun _ => none, 1, some emptyBag⟩,
    [⟨1, fnUpdate emptyBag "password" "oldpw"⟩], []⟩

/-- Folding the same data-bag update over a list of relation ids: the
effect of one provider loop on the relation list. -/
def bagFold (m : Mapping) (ids : List Nat) (rels : List Relation) : List Relation :=
  ids.foldl (fun rs rid => updateRelBag rs rid m) rels

/-- Folding `secret.grant` over a list of relation ids. -/
def grantFold (sid : String) (ids : List Nat) (c : CoreState) : CoreState :=
  ids.foldl (fun acc rid => grantSecret acc sid rid) c

/-- Folding `secret.revoke` over a list of relation ids. -/
def revokeFold (sid : String) (ids : List Nat) (c : CoreState) : CoreState :=
  ids.foldl (fun acc rid => revokeSecret acc sid rid) c

/-- The recorded peer secret exists: the peer bag records `sid` and the
store resolves it (content unconstrained). -/
def SidPresent (sid : String) (c : CoreState) : Prop :=
  ∃ b sec, c.peer = some b ∧ b "secret-id" = some sid ∧ ¬(sid = "")
    ∧ c.secrets sid = some sec

/-- The invariant `_ensure_peer_secret` establishes and the reconcile
loops preserve: the peer data-bag records `sid`, and the secret store
holds a secret `sid` with the given content. -/
def ReadyCore (content : Mapping) (sid : String) (c : CoreState) : Prop :=
  ∃ b sec, c.peer = some b ∧ b "secret-id" = some sid ∧ ¬(sid = "")
    ∧ c.secrets sid = some sec ∧ sec.content = content

/-! ## Supporting lemmas: bags, mappings and secret operations -/

theorem mlookup_append (l1 l2 : Mapping) (k : String) :
    mlookup (l1 ++ l2) k =
      (match mlookup l1 k with
       | some v => some v
       | none => mlookup l2 k) := by
  induction l1 with
  | nil => rfl
  | cons hd tl ih =>
    obtain ⟨a, b⟩ := hd
    by_cases h : a = k
    · simp [mlookup, h]
    · simp [mlookup, h, ih]

theorem dictUpdate_idem (bag : Bag) (m : Mapping) :
    dictUpdate (dictUpdate bag m) m = dictUpdate bag m := by
  funext k
  unfold dictUpdate
  cases mlookup m k <;> rfl

theorem dictUpdate_frame (bag : Bag) (m : Mapping) (k : String)
    (h : mlookup m k = none) : dictUpdate bag m k = bag k := by
  unfold dictUpdate
  rw [h]

theorem fnUpdate_self (b : Bag) (k v : String) (h : b k = some v) :
    fnUpdate b k v = b := by
  funext x
  unfold fnUpdate
  by_cases hx : x = k
  · rw [if_pos hx, hx, h]
  · rw [if_neg hx]

theorem setPeerData_noop (c : CoreState) (b : Bag) (k v : String)
    (hb : c.peer = some b) (hk : b k = some v) : setPeerData c k v = c := by
  unfold setPeerData
  rw [hb, Option.map_some', fnUpdate_self b k v hk, ← hb]

theorem setPeerData_peer (c : CoreState) (b : Bag) (k v : String)
    (hb : c.peer = some b) :
    (setPeerData c k v).peer = some (fnUpdate b k v) := by
  unfold setPeerData
  rw [hb, Option.map_some']

theorem filter_ne_of_not_mem (l : List Nat) (rid : Nat) (h : rid ∉ l) :
    l.filter (fun x => !(x = rid)) = l := by
  induction l with
  | nil => rfl
  | cons a t ih =>
    have ha : ¬(a = rid) := fun he => h (he ▸ List.mem_cons_self a t)
    have ht : rid ∉ t := fun hm => h (List.mem_cons_of_mem a hm)
    simp [List.filter, ha, ih ht]

theorem grantSecret_peer (c : CoreState) (sid : String) (rid : Nat) :
    (grantSecret c sid rid).peer = c.peer := rfl

theorem revokeSecret_peer (c : CoreState) (sid : String) (rid : Nat) :
    (revokeSecret c sid rid).peer = c.peer := rfl

theorem grantSecret_secrets_other (c : CoreState) (sid : String) (rid : Nat)
    (i : String) (h : ¬(i = sid)) :
    (grantSecret c sid rid).secrets i = c.secrets i := by
  unfold grantSecret
  simp [h]

theorem grantSecret_secrets_at (c : CoreState) (sid : String) (rid : Nat)
    (sec : SecretRec) (h : c.secrets sid = some sec) :
    (grantSecret c sid rid).secrets sid =
      some ⟨sec.content, sec.revisions,
        if rid ∈ sec.grants then sec.grants else sec.grants ++ [rid]⟩ := by
  unfold grantSecret
  simp [h]

theorem revokeSecret_secrets_at (c : CoreState) (sid : String) (rid : Nat)
    (sec : SecretRec) (h : c.secrets sid = some sec) :
    (revokeSecret c sid rid).secrets sid =
      some ⟨sec.content, sec.revisions, sec.grants.filter (fun x => !(x = rid))⟩ := by
  unfold revokeSecret
  simp [h]

theorem grantSecret_noop (c : CoreState) (sid : String) (rid : Nat)
    (h : ∀ r, c.secrets sid = some r → rid ∈ r.grants) :
    grantSecret c sid rid = c := by
  unfold grantSecret
  have hf : (fun i => if i = sid then
      (c.secrets i).map (fun r =>
        (⟨r.content, r.revisions,
          if rid ∈ r.grants then r.grants else r.grants ++ [rid]⟩ : SecretRec))
      else c.secrets i) = c.secrets := by
    funext i
    by_cases hi : i = sid
    · subst hi
      cases hs : c.secrets i with
      | none => simp [hs]
      | some r => simp [hs, h r hs]
    · rw [if_neg hi]
  rw [hf]

theorem revokeSecret_noop (c : CoreState) (sid : String) (rid : Nat)
    (h : ∀ r, c.secrets sid = some r → rid ∉ r.grants) :
    revokeSecret c sid rid = c := by
  unfold revokeSecret
  have hf : (fun i => if i = sid then
      (c.secrets i).map (fun r =>
        (⟨r.content, r.revisions, r.grants.filter (fun x => !(x = rid))⟩ : SecretRec))
      else c.secrets i) = c.secrets := by
    funext i
    by_cases hi : i = sid
    · subst hi
      cases hs : c.secrets i with
      | none => simp [hs]
      | some r => simp [hs, filter_ne_of_not_mem r.grants rid (h r hs)]
    · rw [if_neg hi]
  rw [hf]

/-! ## Supporting lemmas: peer secret lookup and ensure -/

theorem gps_found (c : CoreState) (b : Bag) (sid : String) (sec : SecretRec)
    (hp : c.peer = some b) (hk : b "secret-id" = some sid) (hne : ¬(sid = ""))
    (hs : c.secrets sid = some sec) :
    get_peer_secret c = Except.ok (some (sid, sec)) := by
  unfold get_peer_secret get_peer_data
  rw [hp]
  simp [hk, hne, hs]

theorem ensure_ready_noop (content : Mapping) (sid : String) (c : CoreState)
    (h : ReadyCore content sid c) :
    ensure_peer_secret content c = (Except.ok sid, c) := by
  obtain ⟨b, sec, hp, hk, hne, hs, hc⟩ := h
  unfold ensure_peer_secret
  rw [gps_found c b sid sec hp hk hne hs]
  simp only
  rw [setPeerData_noop c b "secret-id" sid hp hk, hc, if_pos rfl]

theorem ensure_err_state (content : Mapping) (c c1 : CoreState) (e : CharmError)
    (h : ensure_peer_secret content c = (Except.error e, c1)) :
    c1 = c ∧ get_peer_secret c = Except.error e := by
  unfold ensure_peer_secret at h
  cases hg : get_peer_secret c with
  | error e2 =>
    rw [hg] at h
    simp only at h
    injection h with h1 h2
    injection h1 with h3
    exact ⟨h2.symm, by rw [h3]⟩
  | ok r =>
    rw [hg] at h
    cases r with
    | none =>
      simp only at h
      split at h <;> simp at h
    | some p =>
      obtain ⟨sid, sec⟩ := p
      simp only at h
      split at h <;> simp at h

theorem secretId_ne_empty (n : Nat) : ¬("secret-" ++ toString n) = "" := by
  intro h
  have hd : ("secret-" ++ toString n).data = "".data := congrArg String.data h
  rw [String.data_append] at hd
  have h7 : "secret-".data = [] := List.append_eq_nil.mp hd |>.1
  simp at h7

theorem gps_ok_peer (c : CoreState) (r : Option (String × SecretRec))
    (h : get_peer_secret c = Except.ok r) : ∃ b, c.peer = some b := by
  unfold get_peer_secret get_peer_data at h
  cases hp : c.peer with
  | none => rw [hp] at h; simp at h
  | some b => exact ⟨b, rfl⟩

theorem gps_ok_some_inv (c : CoreState) (sid : String) (sec : SecretRec)
    (h : get_peer_secret c = Except.ok (some (sid, sec))) :
    ∃ b, c.peer = some b ∧ b "secret-id" = some sid ∧ ¬(sid = "")
      ∧ c.secrets sid = some sec := by
  unfold get_peer_secret get_peer_data at h
  cases hp : c.peer with
  | none => rw [hp] at h; simp at h
  | some b =>
    rw [hp] at h
    simp only at h
    refine ⟨b, rfl, ?_⟩
    cases hk : b "secret-id" with
    | none => rw [hk] at h; simp at h
    | some sid2 =>
      rw [hk] at h
      simp only at h
      split at h
      · simp at h
      · rename_i he
        cases hs : c.secrets sid2 with
        | none => rw [hs] at h; simp at h
        | some sec2 =>
          rw [hs] at h
          simp only at h
          injection h with h1
          injection h1 with h2
          obtain ⟨h3, h4⟩ := Prod.mk.injEq sid2 sec2 sid sec ▸ h2
          subst h3
          subst h4
          exact ⟨rfl, he, hs⟩

theorem ensure_ok_ready (content : Mapping) (c c1 : CoreState) (sid : String)
    (h : ensure_peer_secret content c = (Except.ok sid, c1)) :
    ReadyCore content sid c1 := by
  unfold ensure_peer_secret at h
  cases hg : get_peer_secret c with
  | error e => rw [hg] at h; simp at h
  | ok r =>
    rw [hg] at h
    cases r with
    | none =>
      obtain ⟨b, hp⟩ := gps_ok_peer c none hg
      simp only at h
      split at h
      case isFalse hc => simp at hc
      injection h with h1 h2
      injection h1 with h3
      subst h3
      subst h2
      refine ⟨fnUpdate b "secret-id" (addSecret c content).1, ⟨content, 1, []⟩,
        ?_, ?_, ?_, ?_, rfl⟩
      · exact setPeerData_peer _ b _ _ hp
      · unfold fnUpdate
        rw [if_pos rfl]
      · exact secretId_ne_empty c.nextSecretId
      · show (addSecret c content).2.secrets (addSecret c content).1
          = some ⟨content, 1, []⟩
        unfold addSecret
        simp
    | some p =>
      obtain ⟨sid2, sec⟩ := p
      obtain ⟨b, hp, hk, hne, hs⟩ := gps_ok_some_inv c sid2 sec hg
      simp only at h
      by_cases hc : sec.content = content
      · rw [if_pos hc] at h
        injection h with h1 h2
        injection h1 with h3
        subst h3
        rw [← h2, setPeerData_noop c b "secret-id" sid2 hp hk]
        exact ⟨b, sec, hp, hk, hne, hs, hc⟩
      · rw [if_neg hc] at h
        injection h with h1 h2
        injection h1 with h3
        subst h3
        rw [← h2, setPeerData_noop c b "secret-id" sid2 hp hk]
        refine ⟨b, ⟨content, sec.revisions + 1, sec.grants⟩, hp, hk, hne, ?_, rfl⟩
        unfold setSecretContent
        simp [hs]

theorem ensure_idem (content : Mapping) (c c1 : CoreState) (sid : String)
    (h : ensure_peer_secret content c = (Except.ok sid, c1)) :
    ensure_peer_secret content c1 = (Except.ok sid, c1) :=
  ensure_ready_noop content sid c1 (ensure_ok_ready content c c1 sid h)

/-! ## Supporting lemmas: the bundle and its generation -/

theorem build_ok_fields (host : Option String) (port : Option Int)
    (user pid pw auth ts dom : Option String) (skip : Option Bool)
    (d : Lib.SmtpRelationData)
    (h : Lib.SmtpRelationData.build host port user pid pw auth ts dom skip
      = Except.ok d) :
    d.password_id = pid ∧ d.password = pw := by
  unfold Lib.SmtpRelationData.build at h
  split at h
  · split at h
    · injection h with h1
      rw [← h1]
      exact ⟨rfl, rfl⟩
    · simp at h
  · simp at h

theorem fieldErrors_nil_inv (host : Option String) (port : Option Int)
    (auth ts : Option String)
    (h : Lib.fieldErrors host port auth ts = []) :
    (∃ ho, host = some ho ∧ ¬(ho = ""))
    ∧ (∃ po, port = some po ∧ 1 ≤ po ∧ po ≤ 65536)
    ∧ (∃ av x, auth = some av ∧ AuthType.parse av = some x)
    ∧ (∃ tv y, ts = some tv ∧ TransportSecurity.parse tv = some y) := by
  unfold Lib.fieldErrors at h
  obtain ⟨h123, h234⟩ := List.append_eq_nil.mp h
  obtain ⟨h12, h3⟩ := List.append_eq_nil.mp h123
  obtain ⟨hh, h2⟩ := List.append_eq_nil.mp h12
  refine ⟨?_, ?_, ?_, ?_⟩
  · cases hho : host with
    | none => rw [hho] at hh; simp at hh
    | some ho =>
      rw [hho] at hh
      simp only at hh
      by_cases he : ho = ""
      · rw [if_pos he] at hh; simp at hh
      · exact ⟨ho, rfl, he⟩
  · cases hpo : port with
    | none => rw [hpo] at h2; simp at h2
    | some po =>
      rw [hpo] at h2
      simp only at h2
      by_cases hr : 1 ≤ po ∧ po ≤ 65536
      · exact ⟨po, rfl, hr⟩
      · rw [if_neg hr] at h2; simp at h2
  · cases hav : auth with
    | none => rw [hav] at h3; simp at h3
    | some av =>
      rw [hav] at h3
      simp only at h3
      cases hx : AuthType.parse av with
      | none => rw [hx] at h3; simp at h3
      | some x => exact ⟨av, x, rfl, hx⟩
  · cases htv : ts with
    | none => rw [htv] at h234; simp at h234
    | some tv =>
      rw [htv] at h234
      simp only at h234
      cases hy : TransportSecurity.parse tv with
      | none => rw [hy] at h234; simp at h234
      | some y => exact ⟨tv, y, rfl, hy⟩

theorem bundleResult_err (cfg : Config) (pid : Option String)
    (h : ¬configErrs cfg = []) :
    bundleResult cfg pid = Except.error (CharmError.configInvalid
      ("invalid configuration: " ++ joinFields (configErrs cfg))) := by
  unfold bundleResult Lib.SmtpRelationData.build
  cases he : Lib.fieldErrors cfg.host cfg.port cfg.auth_type cfg.transport_security with
  | nil => exact absurd he h
  | cons a t =>
    simp only
    rw [show configErrs cfg = a :: t from he]

theorem bundleResult_ok (cfg : Config) (pid : Option String)
    (h : configErrs cfg = []) :
    ∃ d, bundleResult cfg pid = Except.ok d
      ∧ d.password_id = pid ∧ d.password = cfg.password := by
  obtain ⟨⟨ho, hho, hne⟩, ⟨po, hpo, hr⟩, ⟨av, x, hav, hx⟩, ⟨tv, y, htv, hy⟩⟩ :=
    fieldErrors_nil_inv cfg.host cfg.port cfg.auth_type cfg.transport_security h
  refine ⟨⟨ho, po, cfg.user, pid, cfg.password, x, y, cfg.domain,
    cfg.skip_ssl_verify.getD false⟩, ?_, rfl, rfl⟩
  unfold bundleResult Lib.SmtpRelationData.build
  rw [show Lib.fieldErrors cfg.host cfg.port cfg.auth_type cfg.transport_security = []
    from h]
  simp only [hho, hpo, hav, htv, Option.some_bind]
  rw [hx, hy]

theorem gen_skip (cfg : Config) (env : Env) (c : CoreState)
    (h : pathTaken cfg env = false) :
    generate_smtp_data cfg env c = (bundleResult cfg none, c) := by
  unfold generate_smtp_data
  simp [h]

theorem gen_noop_taken (cfg : Config) (env : Env) (c : CoreState) (sid : String)
    (ht : pathTaken cfg env = true) (hr : ReadyCore (pwContent cfg) sid c) :
    generate_smtp_data cfg env c = (bundleResult cfg (some sid), c) := by
  unfold generate_smtp_data
  simp only [ht, if_true]
  rw [ensure_ready_noop (pwContent cfg) sid c hr]

theorem gen_idem (cfg : Config) (env : Env) (c c1 : CoreState)
    (r : Except CharmError Lib.SmtpRelationData)
    (h : generate_smtp_data cfg env c = (r, c1)) :
    generate_smtp_data cfg env c1 = (r, c1) := by
  by_cases ht : pathTaken cfg env = true
  · unfold generate_smtp_data at h
    simp only [ht, if_true] at h
    cases he : ensure_peer_secret (pwContent cfg) c with
    | mk res c2 =>
      rw [he] at h
      cases res with
      | error e =>
        simp only at h
        injection h with h1 h2
        obtain ⟨hc, hgps⟩ := ensure_err_state (pwContent cfg) c c2 e he
        rw [← h2, ← h1, hc]
        rw [hc] at he
        unfold generate_smtp_data
        simp only [ht, if_true]
        rw [he]
      | ok sid =>
        simp only at h
        injection h with h1 h2
        rw [← h2, ← h1]
        have h3 := ensure_idem (pwContent cfg) c c2 sid he
        unfold generate_smtp_data
        simp only [ht, if_true]
        rw [h3]
  · have hf : pathTaken cfg env = false := by
      cases hb : pathTaken cfg env
      · rfl
      · exact absurd hb ht
    rw [gen_skip cfg env c hf] at h
    injection h with h1 h2
    rw [← h2, ← h1]
    exact gen_skip cfg env c hf

end Smtp

namespace Smtp

/-! ## Claim theorems and their supporting lemmas -/

/-- C1: the claim says the mapping written to each modern-protocol
(smtp) relation data-bag holds a non-null `password_id` and no
`password` key.  The library snapshot under `lib/` (`smtp.py` lines
130-148) contradicts this and its own tests
(`test_smtp_relation_data_to_relation_data`,
`test_relation_joined_when_no_password`): its bundle has no
`password_id` field at all, and its encoder publishes the plaintext
password whenever one is set, as this evaluation at a concrete bundle
shows. -/
theorem libV1_to_relation_data_emits_plaintext_password :
    mlookup (LibV1.SmtpRelationData.to_relation_data
      ⟨"smtp.example", 25, none, some "secret123", AuthType.plain,
        TransportSecurity.tls, none⟩) "password" = some "secret123"
    ∧ mlookup (LibV1.SmtpRelationData.to_relation_data
      ⟨"smtp.example", 25, none, some "secret123", AuthType.plain,
        TransportSecurity.tls, none⟩) "password_id" = none := by
  exact ⟨rfl, rfl⟩

/-- C4: the claim says a relation-changed event whose application
data-bag lacks the `host` key emits no `smtp_data_available` event.
The guard of `SmtpRequires._on_relation_changed` in the library
snapshot under `lib/` (`smtp.py` lines 240-248) contradicts this and
the repository's own test
(`test_requirer_charm_with_invalid_relation_data_doesnt_emit_event`):
it emits for any non-empty data-bag, host present or not, as this
evaluation at the host-less bag `{"port": "25"}` shows. -/
theorem libV1_relation_changed_emits_without_host :
    LibV1.relationChangedEmits [("port", "25")] = true
    ∧ mlookup [("port", "25")] "host" = none := by
  exact ⟨rfl, rfl⟩

/-- C6: the claim says bundle construction succeeds only for a port in
1-65536 and fails for 0.  Both `SmtpRelationData` of the library
snapshot under `lib/` (`smtp.py` lines 122-128) and
`SmtpIntegratorConfig` of `src/charm_state.py` (lines 39-45) declare
`port: int` with no range constraint, contradicting the claim and the
repository's own test
(`test_misconfigured_port_charm_reaches_blocked_status`): construction
at port 0 succeeds in both, as this evaluation shows. -/
theorem port_zero_bundle_constructible :
    LibV1.SmtpRelationData.build (some "smtp.example") (some 0) none none
      (some "plain") (some "tls") none
      = Except.ok ⟨"smtp.example", 0, none, none, AuthType.plain, TransportSecurity.tls, none⟩
    ∧ CharmStateV.SmtpIntegratorConfig.build (some "smtp.example") (some 0) none none
      (some "plain") (some "tls") none
      = Except.ok ⟨"smtp.example", 0, none, none, some AuthType.plain,
          some TransportSecurity.tls, none⟩ := by
  exact ⟨rfl, rfl⟩

/-- C9: the recipients parser maps the comma-separated, JSON-list and
bracket-less quoted encodings of the same address list to the same
ordered list, and maps None, the empty string and whitespace-only
strings to the empty list, never null. -/
theorem parse_recipients_normalization :
    Lib.parse_recipients (some "a@x.com,b@y.com") = ["a@x.com", "b@y.com"]
    ∧ Lib.parse_recipients (some "[\"a@x.com\",\"b@y.com\"]") = ["a@x.com", "b@y.com"]
    ∧ Lib.parse_recipients (some "\"a@x.com\", \"b@y.com\"") = ["a@x.com", "b@y.com"]
    ∧ Lib.parse_recipients none = []
    ∧ Lib.parse_recipients (some "") = []
    ∧ Lib.parse_recipients (some "   ") = [] := by
  refine ⟨?_, ?_, ?_, rfl, ?_, ?_⟩ <;> decide

/-- C2, counterexample: with the host missing, a non-empty configured
password and secret support, `_reconcile` raises the
configuration-invalid error, but a peer secret holding the password has
already been created (and its id recorded) before the raise; prior
state is not left untouched as the claim states. -/
theorem reconcile_invalid_config_mutates_secret_cex :
    (reconcile cfgNoHost ⟨true, true⟩ (initState [] [])).err
      = some (CharmError.configInvalid "invalid configuration: host")
    ∧ (initState [] []).core.secrets "secret-1" = none
    ∧ (reconcile cfgNoHost ⟨true, true⟩ (initState [] [])).state.core.secrets "secret-1"
      = some ⟨[("password", "secret123")], 1, []⟩
    ∧ recordedId (reconcile cfgNoHost ⟨true, true⟩ (initState [] [])).state
      = some "secret-1" := by
  exact ⟨rfl, rfl, rfl, rfl⟩

/-- C5, counterexample: on a leader with a valid configuration, no
secret support, one legacy and one smtp relation, the pass updates the
legacy relation and leaves the smtp relation unpopulated, but it
raises `CharmConfigInvalidError` ("smtp relation is not supported in
juju < 3.0.3"), so the condition is reported as an error, contrary to
the claim. -/
theorem reconcile_no_secret_support_blocks_cex :
    (reconcile cfgMinimal ⟨true, false⟩ (initState [1] [2])).err
      = some (CharmError.configInvalid "smtp relation is not supported in juju < 3.0.3")
    ∧ (reconcile cfgMinimal ⟨true, false⟩ (initState [1] [2])).smtpWrites = []
    ∧ (reconcile cfgMinimal ⟨true, false⟩ (initState [1] [2])).legacyWrites
      = [(1, [("host", "smtp.example"), ("port", "25"), ("auth_type", "none"),
          ("transport_security", "none"), ("skip_ssl_verify", "False")])] := by
  exact ⟨rfl, rfl, rfl⟩

/-- C7: when the unit is not the leader, a reconciliation pass and a
relation-broken event are pure no-ops: the state is returned unchanged,
nothing is written to any relation data-bag, no error is raised and no
secret is touched. -/
theorem reconcile_non_leader_noop (cfg : Config) (env : Env) (s : CharmState) (rid : Nat)
    (h : env.isLeader = false) :
    reconcile cfg env s = ⟨s, none, [], []⟩
    ∧ on_relation_broken rid env s = (none, s) := by
  unfold reconcile on_relation_broken
  rw [h]
  exact ⟨rfl, rfl⟩

/-- C7, witness: the non-leader no-op at a concrete environment, state
and relation. -/
theorem reconcile_non_leader_noop_witness :
    (⟨false, true⟩ : Env).isLeader = false
    ∧ (reconcile cfgFull ⟨false, true⟩ (initState [1] [2]) = ⟨initState [1] [2], none, [], []⟩
      ∧ on_relation_broken 2 ⟨false, true⟩ (initState [1] [2]) = (none, initState [1] [2])) := by
  exact ⟨rfl, reconcile_non_leader_noop cfgFull ⟨false, true⟩ (initState [1] [2]) 2 rfl⟩

/-! ## Relation-list fold algebra -/

theorem updOne_id (rid : Nat) (m : Mapping) (r : Relation) :
    (updOne rid m r).id = r.id := by
  unfold updOne
  split <;> rfl

theorem updOne_idem (rid : Nat) (m : Mapping) (r : Relation) :
    updOne rid m (updOne rid m r) = updOne rid m r := by
  unfold updOne
  by_cases h : r.id = rid
  · simp [h, dictUpdate_idem]
  · simp [h]

theorem updOne_comm (a b : Nat) (m : Mapping) (r : Relation) :
    updOne b m (updOne a m r) = updOne a m (updOne b m r) := by
  obtain ⟨rid, bag⟩ := r
  unfold updOne
  by_cases hab : a = b
  · subst hab; rfl
  · have hba : ¬(b = a) := fun h => hab h.symm
    by_cases ha : rid = a <;> by_cases hb : rid = b
    · exact absurd (ha.symm.trans hb) hab
    · simp [ha, hb, hab]
    · simp [ha, hb, hba]
    · simp [ha, hb]

theorem updateRelBag_idem (rels : List Relation) (a : Nat) (m : Mapping) :
    updateRelBag (updateRelBag rels a m) a m = updateRelBag rels a m := by
  unfold updateRelBag
  rw [List.map_map]
  exact congrArg (fun f => List.map f rels) (funext fun r => updOne_idem a m r)

theorem updateRelBag_comm (rels : List Relation) (a b : Nat) (m : Mapping) :
    updateRelBag (updateRelBag rels a m) b m = updateRelBag (updateRelBag rels b m) a m := by
  unfold updateRelBag
  rw [List.map_map, List.map_map]
  exact congrArg (fun f => List.map f rels) (funext fun r => updOne_comm a b m r)

theorem updateRelBag_ids (rels : List Relation) (rid : Nat) (m : Mapping) :
    (updateRelBag rels rid m).map (fun r => r.id) = rels.map (fun r => r.id) := by
  unfold updateRelBag
  rw [List.map_map]
  exact congrArg (fun f => List.map f rels) (funext fun r => updOne_id rid m r)

theorem bagFold_ids (m : Mapping) (ids : List Nat) (rels : List Relation) :
    (bagFold m ids rels).map (fun r => r.id) = rels.map (fun r => r.id) := by
  induction ids generalizing rels with
  | nil => rfl
  | cons a t ih =>
    show (bagFold m t (updateRelBag rels a m)).map (fun r => r.id) = _
    rw [ih (updateRelBag rels a m), updateRelBag_ids]

theorem updateRelBag_bagFold_comm (m : Mapping) (t : List Nat) (rels : List Relation)
    (a : Nat) :
    updateRelBag (bagFold m t rels) a m = bagFold m t (updateRelBag rels a m) := by
  induction t generalizing rels with
  | nil => rfl
  | cons b u ih =>
    show updateRelBag (bagFold m u (updateRelBag rels b m)) a m = _
    rw [ih (updateRelBag rels b m), updateRelBag_comm]
    rfl

theorem bagFold_twice (m : Mapping) (ids : List Nat) (rels : List Relation) :
    bagFold m ids (bagFold m ids rels) = bagFold m ids rels := by
  induction ids generalizing rels with
  | nil => rfl
  | cons a t ih =>
    show bagFold m t (updateRelBag (bagFold m t (updateRelBag rels a m)) a m)
      = bagFold m t (updateRelBag rels a m)
    rw [updateRelBag_bagFold_comm, updateRelBag_idem]
    exact ih (updateRelBag rels a m)

/-! ## Grant and revoke fold lemmas -/

theorem grant_self_mem (c : CoreState) (sid : String) (rid : Nat) (r : SecretRec)
    (h : (grantSecret c sid rid).secrets sid = some r) : rid ∈ r.grants := by
  unfold grantSecret at h
  simp only [if_pos rfl] at h
  cases hs : c.secrets sid with
  | none => rw [hs] at h; simp at h
  | some r0 =>
    rw [hs] at h
    injection h with h1
    rw [← h1]
    by_cases hm : rid ∈ r0.grants
    · simp only [if_pos hm]
      exact hm
    · simp [hm]

theorem grant_keeps_mem (c : CoreState) (sid : String) (rid rid2 : Nat)
    (hmem : ∀ r, c.secrets sid = some r → rid ∈ r.grants) :
    ∀ r2, (grantSecret c sid rid2).secrets sid = some r2 → rid ∈ r2.grants := by
  intro r2 h
  unfold grantSecret at h
  simp only [if_pos rfl] at h
  cases hs : c.secrets sid with
  | none => rw [hs] at h; simp at h
  | some r0 =>
    rw [hs] at h
    injection h with h1
    rw [← h1]
    have := hmem r0 hs
    by_cases hm : rid2 ∈ r0.grants
    · simpa [hm] using this
    · simp only [if_neg hm]
      exact List.mem_append_left _ this

theorem grantFold_keeps_mem (sid : String) (ids : List Nat) (c : CoreState) (rid : Nat)
    (hmem : ∀ r, c.secrets sid = some r → rid ∈ r.grants) :
    ∀ r2, (grantFold sid ids c).secrets sid = some r2 → rid ∈ r2.grants := by
  induction ids generalizing c with
  | nil => exact hmem
  | cons a t ih =>
    exact ih (grantSecret c sid a) (grant_keeps_mem c sid rid a hmem)

theorem grantFold_post (sid : String) (ids : List Nat) (c : CoreState) (rid : Nat)
    (hr : rid ∈ ids) :
    ∀ r, (grantFold sid ids c).secrets sid = some r → rid ∈ r.grants := by
  induction ids generalizing c with
  | nil => cases hr
  | cons a t ih =>
    rcases List.mem_cons.mp hr with h | h
    · subst h
      exact grantFold_keeps_mem sid t (grantSecret c sid rid) rid
        (grant_self_mem c sid rid)
    · exact ih (grantSecret c sid a) h

theorem grantFold_noop (sid : String) (ids : List Nat) (c : CoreState)
    (h : ∀ rid ∈ ids, grantSecret c sid rid = c) : grantFold sid ids c = c := by
  induction ids with
  | nil => rfl
  | cons a t ih =>
    show grantFold sid t (grantSecret c sid a) = c
    rw [h a (List.mem_cons_self a t)]
    exact ih (fun rid hm => h rid (List.mem_cons_of_mem a hm))

theorem grantFold_twice (sid : String) (ids : List Nat) (c : CoreState) :
    grantFold sid ids (grantFold sid ids c) = grantFold sid ids c := by
  apply grantFold_noop
  intro rid hr
  exact grantSecret_noop _ sid rid (grantFold_post sid ids c rid hr)

theorem revoke_self_not_mem (c : CoreState) (sid : String) (rid : Nat) (r : SecretRec)
    (h : (revokeSecret c sid rid).secrets sid = some r) : rid ∉ r.grants := by
  unfold revokeSecret at h
  simp only [if_pos rfl] at h
  cases hs : c.secrets sid with
  | none => rw [hs] at h; simp at h
  | some r0 =>
    rw [hs] at h
    injection h with h1
    rw [← h1]
    intro hm
    have := List.of_mem_filter hm
    simp at this

theorem revoke_keeps_not_mem (c : CoreState) (sid : String) (rid rid2 : Nat)
    (hmem : ∀ r, c.secrets sid = some r → rid ∉ r.grants) :
    ∀ r2, (revokeSecret c sid rid2).secrets sid = some r2 → rid ∉ r2.grants := by
  intro r2 h
  unfold revokeSecret at h
  simp only [if_pos rfl] at h
  cases hs : c.secrets sid with
  | none => rw [hs] at h; simp at h
  | some r0 =>
    rw [hs] at h
    injection h with h1
    rw [← h1]
    intro hm
    exact hmem r0 hs (List.mem_of_mem_filter hm)

theorem revokeFold_keeps_not_mem (sid : String) (ids : List Nat) (c : CoreState)
    (rid : Nat)
    (hmem : ∀ r, c.secrets sid = some r → rid ∉ r.grants) :
    ∀ r2, (revokeFold sid ids c).secrets sid = some r2 → rid ∉ r2.grants := by
  induction ids generalizing c with
  | nil => exact hmem
  | cons a t ih =>
    exact ih (revokeSecret c sid a) (revoke_keeps_not_mem c sid rid a hmem)

theorem revokeFold_post (sid : String) (ids : List Nat) (c : CoreState) (rid : Nat)
    (hr : rid ∈ ids) :
    ∀ r, (revokeFold sid ids c).secrets sid = some r → rid ∉ r.grants := by
  induction ids generalizing c with
  | nil => cases hr
  | cons a t ih =>
    rcases List.mem_cons.mp hr with h | h
    · subst h
      exact revokeFold_keeps_not_mem sid t (revokeSecret c sid rid) rid
        (revoke_self_not_mem c sid rid)
    · exact ih (revokeSecret c sid a) h

theorem revokeFold_noop (sid : String) (ids : List Nat) (c : CoreState)
    (h : ∀ rid ∈ ids, revokeSecret c sid rid = c) : revokeFold sid ids c = c := by
  induction ids with
  | nil => rfl
  | cons a t ih =>
    show revokeFold sid t (revokeSecret c sid a) = c
    rw [h a (List.mem_cons_self a t)]
    exact ih (fun rid hm => h rid (List.mem_cons_of_mem a hm))

theorem revokeFold_twice (sid : String) (ids : List Nat) (c : CoreState) :
    revokeFold sid ids (revokeFold sid ids c) = revokeFold sid ids c := by
  apply revokeFold_noop
  intro rid hr
  exact revokeSecret_noop _ sid rid (revokeFold_post sid ids c rid hr)

/-! ## Invariant preservation under grant and revoke -/

theorem grantSecret_cr (c : CoreState) (sid2 : String) (rid : Nat) (i : String) :
    ((grantSecret c sid2 rid).secrets i).map (fun r => (r.content, r.revisions))
      = (c.secrets i).map (fun r => (r.content, r.revisions)) := by
  unfold grantSecret
  by_cases hi : i = sid2
  · simp only [hi, if_pos rfl]
    cases c.secrets sid2 <;> simp
  · simp [hi]

theorem revokeSecret_cr (c : CoreState) (sid2 : String) (rid : Nat) (i : String) :
    ((revokeSecret c sid2 rid).secrets i).map (fun r => (r.content, r.revisions))
      = (c.secrets i).map (fun r => (r.content, r.revisions)) := by
  unfold revokeSecret
  by_cases hi : i = sid2
  · simp only [hi, if_pos rfl]
    cases c.secrets sid2 <;> simp
  · simp [hi]

theorem grantFold_cr (sid : String) (ids : List Nat) (c : CoreState) (i : String) :
    ((grantFold sid ids c).secrets i).map (fun r => (r.content, r.revisions))
      = (c.secrets i).map (fun r => (r.content, r.revisions)) := by
  induction ids generalizing c with
  | nil => rfl
  | cons a t ih =>
    show ((grantFold sid t (grantSecret c sid a)).secrets i).map _ = _
    rw [ih (grantSecret c sid a), grantSecret_cr]

theorem revokeFold_cr (sid : String) (ids : List Nat) (c : CoreState) (i : String) :
    ((revokeFold sid ids c).secrets i).map (fun r => (r.content, r.revisions))
      = (c.secrets i).map (fun r => (r.content, r.revisions)) := by
  induction ids generalizing c with
  | nil => rfl
  | cons a t ih =>
    show ((revokeFold sid t (revokeSecret c sid a)).secrets i).map _ = _
    rw [ih (revokeSecret c sid a), revokeSecret_cr]

theorem grantFold_peer (sid : String) (ids : List Nat) (c : CoreState) :
    (grantFold sid ids c).peer = c.peer := by
  induction ids generalizing c with
  | nil => rfl
  | cons a t ih =>
    show (grantFold sid t (grantSecret c sid a)).peer = c.peer
    rw [ih (grantSecret c sid a)]
    rfl

theorem revokeFold_peer (sid : String) (ids : List Nat) (c : CoreState) :
    (revokeFold sid ids c).peer = c.peer := by
  induction ids generalizing c with
  | nil => rfl
  | cons a t ih =>
    show (revokeFold sid t (revokeSecret c sid a)).peer = c.peer
    rw [ih (revokeSecret c sid a)]
    rfl

theorem cr_eq_content_rev (o1 o2 : Option SecretRec)
    (h : o1.map (fun r => (r.content, r.revisions)) = o2.map (fun r => (r.content, r.revisions))) :
    o1.map (fun r => r.content) = o2.map (fun r => r.content)
    ∧ o1.map (fun r => r.revisions) = o2.map (fun r => r.revisions) := by
  cases o1 with
  | none => cases o2 with
    | none => exact ⟨rfl, rfl⟩
    | some r2 => simp at h
  | some r1 => cases o2 with
    | none => simp at h
    | some r2 =>
      simp only [Option.map_some'] at h
      injection h with h1
      obtain ⟨hc, hr⟩ := Prod.mk.injEq _ _ _ _ ▸ h1
      simp [hc, hr]

theorem ReadyCore_grant (content : Mapping) (sid : String) (c : CoreState)
    (sid2 : String) (rid : Nat) (h : ReadyCore content sid c) :
    ReadyCore content sid (grantSecret c sid2 rid) := by
  obtain ⟨b, sec, hp, hk, hne, hs, hc⟩ := h
  by_cases hi : sid = sid2
  · subst hi
    exact ⟨b, ⟨sec.content, sec.revisions,
      if rid ∈ sec.grants then sec.grants else sec.grants ++ [rid]⟩, hp, hk, hne,
      grantSecret_secrets_at c sid rid sec hs, hc⟩
  · exact ⟨b, sec, hp, hk, hne,
      (grantSecret_secrets_other c sid2 rid sid hi).symm ▸ hs, hc⟩

theorem ReadyCore_grantFold (content : Mapping) (sid : String) (ids : List Nat)
    (c : CoreState) (h : ReadyCore content sid c) :
    ReadyCore content sid (grantFold sid ids c) := by
  induction ids generalizing c with
  | nil => exact h
  | cons a t ih => exact ih (grantSecret c sid a) (ReadyCore_grant content sid c sid a h)

theorem revokeSecret_secrets_other (c : CoreState) (sid : String) (rid : Nat)
    (i : String) (h : ¬(i = sid)) :
    (revokeSecret c sid rid).secrets i = c.secrets i := by
  unfold revokeSecret
  simp [h]

theorem SidPresent_revoke (sid : String) (c : CoreState) (sid2 : String) (rid : Nat)
    (h : SidPresent sid c) : SidPresent sid (revokeSecret c sid2 rid) := by
  obtain ⟨b, sec, hp, hk, hne, hs⟩ := h
  by_cases hi : sid = sid2
  · subst hi
    exact ⟨b, ⟨sec.content, sec.revisions, sec.grants.filter (fun x => !(x = rid))⟩,
      hp, hk, hne, revokeSecret_secrets_at c sid rid sec hs⟩
  · exact ⟨b, sec, hp, hk, hne, (revokeSecret_secrets_other c sid2 rid sid hi).symm ▸ hs⟩

theorem SidPresent_revokeFold (sid : String) (ids : List Nat) (c : CoreState)
    (h : SidPresent sid c) : SidPresent sid (revokeFold sid ids c) := by
  induction ids generalizing c with
  | nil => exact h
  | cons a t ih => exact ih (revokeSecret c sid a) (SidPresent_revoke sid c sid a h)

theorem gps_sidPresent (sid : String) (c : CoreState) (h : SidPresent sid c) :
    ∃ sec, get_peer_secret c = Except.ok (some (sid, sec)) := by
  obtain ⟨b, sec, hp, hk, hne, hs⟩ := h
  exact ⟨sec, gps_found c b sid sec hp hk hne hs⟩

theorem ensure_sidPresent (content : Mapping) (sid : String) (c : CoreState)
    (h : SidPresent sid c) :
    ∃ c2, ensure_peer_secret content c = (Except.ok sid, c2) := by
  obtain ⟨b, sec, hp, hk, hne, hs⟩ := h
  unfold ensure_peer_secret
  rw [gps_found c b sid sec hp hk hne hs]
  simp only
  by_cases hc : sec.content = content
  · rw [if_pos hc]
    exact ⟨_, rfl⟩
  · rw [if_neg hc]
    exact ⟨_, rfl⟩

/-! ## Bundle result inversions and wire-key lookups -/

theorem bundleResult_ok_build (cfg : Config) (pid : Option String)
    (d : Lib.SmtpRelationData) (h : bundleResult cfg pid = Except.ok d) :
    Lib.SmtpRelationData.build cfg.host cfg.port cfg.user pid cfg.password
      cfg.auth_type cfg.transport_security cfg.domain cfg.skip_ssl_verify
      = Except.ok d := by
  unfold bundleResult at h
  cases hb : Lib.SmtpRelationData.build cfg.host cfg.port cfg.user pid cfg.password
      cfg.auth_type cfg.transport_security cfg.domain cfg.skip_ssl_verify with
  | ok d2 =>
    rw [hb] at h
    simp only at h
    injection h with h1
    rw [h1]
  | error fields => rw [hb] at h; simp at h

theorem bundleResult_ok_pid (cfg : Config) (pid : Option String)
    (d : Lib.SmtpRelationData) (h : bundleResult cfg pid = Except.ok d) :
    d.password_id = pid ∧ d.password = cfg.password :=
  build_ok_fields cfg.host cfg.port cfg.user pid cfg.password cfg.auth_type
    cfg.transport_security cfg.domain cfg.skip_ssl_verify d
    (bundleResult_ok_build cfg pid d h)

theorem bundleResult_ok_errs (cfg : Config) (pid : Option String)
    (d : Lib.SmtpRelationData) (h : bundleResult cfg pid = Except.ok d) :
    configErrs cfg = [] := by
  by_contra hne
  rw [bundleResult_err cfg pid hne] at h
  simp at h

theorem to_relation_data_password_id (d : Lib.SmtpRelationData) :
    mlookup (Lib.SmtpRelationData.to_relation_data d) "password_id"
      = if optTruthy d.password_id then some (d.password_id.getD "") else none := by
  unfold Lib.SmtpRelationData.to_relation_data
  rw [mlookup_append, mlookup_append, mlookup_append]
  by_cases hd : optTruthy d.domain <;> by_cases hu : optTruthy d.user
    <;> by_cases hp : optTruthy d.password_id
  all_goals by_cases hw : optTruthy d.password
  all_goals simp [hd, hu, hp, hw, mlookup]

theorem to_relation_data_password (d : Lib.SmtpRelationData) :
    mlookup (Lib.SmtpRelationData.to_relation_data d) "password"
      = if optTruthy d.password_id then none
        else if optTruthy d.password then some (d.password.getD "") else none := by
  unfold Lib.SmtpRelationData.to_relation_data
  rw [mlookup_append, mlookup_append, mlookup_append]
  by_cases hd : optTruthy d.domain <;> by_cases hu : optTruthy d.user
    <;> by_cases hp : optTruthy d.password_id
  all_goals by_cases hw : optTruthy d.password
  all_goals simp [hd, hu, hp, hw, mlookup]

/-! ## Loop run lemmas -/

theorem legacyLoop_run (cfg : Config) (env : Env) (d : Lib.SmtpRelationData)
    (ids : List Nat) (s : CharmState) (w : List (Nat × Mapping))
    (hg : generate_smtp_data cfg env s.core = (Except.ok d, s.core)) :
    legacyLoop cfg env ids s w =
      (none,
        ⟨s.core, bagFold (legMapping d) ids s.legacyRels, s.smtpRels⟩,
        w ++ ids.map (fun rid => (rid, legMapping d))) := by
  induction ids generalizing s w with
  | nil =>
    show (none, s, w) = _
    simp [bagFold]
  | cons a t ih =>
    unfold legacyLoop
    rw [hg]
    simp only
    rw [ih ⟨s.core, updateRelBag s.legacyRels a (legMapping d), s.smtpRels⟩
      (w ++ [(a, legMapping d)]) hg]
    simp [bagFold]

theorem smtpLoop_nil (cfg : Config) (env : Env) (s : CharmState)
    (w : List (Nat × Mapping)) : smtpLoop cfg env [] s w = (none, s, w) := rfl

theorem smtpLoop_no_secrets (cfg : Config) (env : Env) (a : Nat) (t : List Nat)
    (s : CharmState) (w : List (Nat × Mapping)) (hsec : env.hasSecrets = false) :
    smtpLoop cfg env (a :: t) s w =
      (some (CharmError.configInvalid "smtp relation is not supported in juju < 3.0.3"),
        s, w) := by
  unfold smtpLoop
  rw [hsec]
  simp

theorem smtpLoop_run_granting (cfg : Config) (env : Env) (d : Lib.SmtpRelationData)
    (sid : String) (ids : List Nat) (s : CharmState) (w : List (Nat × Mapping))
    (ht : pathTaken cfg env = true)
    (hready : ReadyCore (pwContent cfg) sid s.core)
    (hbd : bundleResult cfg (some sid) = Except.ok d)
    (hpid : d.password_id = some sid) :
    smtpLoop cfg env ids s w =
      (none,
        ⟨grantFold sid ids s.core, s.legacyRels,
          bagFold (Lib.SmtpRelationData.to_relation_data d) ids s.smtpRels⟩,
        w ++ ids.map (fun rid => (rid, Lib.SmtpRelationData.to_relation_data d))) := by
  have hsec : env.hasSecrets = true := by
    unfold pathTaken at ht
    exact (Bool.and_eq_true _ _ |>.mp ht).2
  have hne : ¬(sid = "") := by
    obtain ⟨b, sec, _, _, hne, _, _⟩ := hready
    exact hne
  have hpt : optTruthy d.password_id = true := by
    rw [hpid]
    unfold optTruthy
    simp [hne]
  induction ids generalizing s w with
  | nil =>
    show (none, s, w) = _
    simp [grantFold, bagFold]
  | cons a t ih =>
    obtain ⟨sec, hgps⟩ := gps_sidPresent sid s.core
      (by obtain ⟨b, sec, h1, h2, h3, h4, _⟩ := hready; exact ⟨b, sec, h1, h2, h3, h4⟩)
    unfold smtpLoop
    rw [hsec]
    simp only [Bool.not_true, Bool.false_eq_true, if_false]
    rw [gen_noop_taken cfg env s.core sid ht hready, hbd]
    simp only
    rw [hgps]
    simp only
    rw [if_pos hpt, if_neg (show ¬((!optTruthy d.password_id) = true) by rw [hpt]; simp)]
    rw [ih ⟨grantSecret s.core sid a, s.legacyRels,
        updateRelBag s.smtpRels a (Lib.SmtpRelationData.to_relation_data d)⟩
      (w ++ [(a, Lib.SmtpRelationData.to_relation_data d)])
      (ReadyCore_grant (pwContent cfg) sid s.core sid a hready)]
    simp [grantFold, bagFold]

theorem smtpLoop_skip_gps_err (cfg : Config) (env : Env) (d : Lib.SmtpRelationData)
    (e : CharmError) (a : Nat) (t : List Nat) (s : CharmState)
    (w : List (Nat × Mapping))
    (hsk : pathTaken cfg env = false) (hsec : env.hasSecrets = true)
    (hbd : bundleResult cfg none = Except.ok d)
    (hgps : get_peer_secret s.core = Except.error e) :
    smtpLoop cfg env (a :: t) s w = (some e, s, w) := by
  unfold smtpLoop
  rw [hsec]
  simp only [Bool.not_true, Bool.false_eq_true, if_false]
  rw [gen_skip cfg env s.core hsk, hbd]
  simp only
  rw [hgps]

theorem smtpLoop_skip_no_secret (cfg : Config) (env : Env) (d : Lib.SmtpRelationData)
    (ids : List Nat) (s : CharmState) (w : List (Nat × Mapping))
    (hsk : pathTaken cfg env = false) (hsec : env.hasSecrets = true)
    (hbd : bundleResult cfg none = Except.ok d)
    (hpid : d.password_id = none)
    (hgps : get_peer_secret s.core = Except.ok none) :
    smtpLoop cfg env ids s w =
      (none,
        ⟨s.core, s.legacyRels,
          bagFold (Lib.SmtpRelationData.to_relation_data d) ids s.smtpRels⟩,
        w ++ ids.map (fun rid => (rid, Lib.SmtpRelationData.to_relation_data d))) := by
  induction ids generalizing s w with
  | nil =>
    show (none, s, w) = _
    simp [bagFold]
  | cons a t ih =>
    have hpf : optTruthy d.password_id = false := by rw [hpid]; rfl
    unfold smtpLoop
    rw [hsec]
    simp only [Bool.not_true, Bool.false_eq_true, if_false]
    rw [gen_skip cfg env s.core hsk, hbd]
    simp only
    rw [hgps]
    simp only
    rw [if_neg (show ¬(optTruthy d.password_id = true) by rw [hpf]; simp)]
    rw [ih ⟨s.core, s.legacyRels,
        updateRelBag s.smtpRels a (Lib.SmtpRelationData.to_relation_data d)⟩
      (w ++ [(a, Lib.SmtpRelationData.to_relation_data d)]) hgps]
    simp [bagFold]

theorem smtpLoop_skip_revoking (cfg : Config) (env : Env) (d : Lib.SmtpRelationData)
    (sid : String) (ids : List Nat) (s : CharmState) (w : List (Nat × Mapping))
    (hsk : pathTaken cfg env = false) (hsec : env.hasSecrets = true)
    (hbd : bundleResult cfg none = Except.ok d)
    (hpid : d.password_id = none)
    (hsp : SidPresent sid s.core) :
    smtpLoop cfg env ids s w =
      (none,
        ⟨revokeFold sid ids s.core, s.legacyRels,
          bagFold (Lib.SmtpRelationData.to_relation_data d) ids s.smtpRels⟩,
        w ++ ids.map (fun rid => (rid, Lib.SmtpRelationData.to_relation_data d))) := by
  induction ids generalizing s w with
  | nil =>
    show (none, s, w) = _
    simp [revokeFold, bagFold]
  | cons a t ih =>
    have hpf : optTruthy d.password_id = false := by rw [hpid]; rfl
    obtain ⟨sec, hgps⟩ := gps_sidPresent sid s.core hsp
    unfold smtpLoop
    rw [hsec]
    simp only [Bool.not_true, Bool.false_eq_true, if_false]
    rw [gen_skip cfg env s.core hsk, hbd]
    simp only
    rw [hgps]
    simp only
    rw [if_neg (show ¬(optTruthy d.password_id = true) by rw [hpf]; simp),
      if_pos (show (!optTruthy d.password_id) = true by rw [hpf]; rfl)]
    rw [ih ⟨revokeSecret s.core sid a, s.legacyRels,
        updateRelBag s.smtpRels a (Lib.SmtpRelationData.to_relation_data d)⟩
      (w ++ [(a, Lib.SmtpRelationData.to_relation_data d)])
      (SidPresent_revoke sid s.core sid a hsp)]
    simp [revokeFold, bagFold]

theorem reconcile_sanity_err (cfg : Config) (env : Env) (s : CharmState)
    (e : CharmError) (c1 : CoreState) (hl : env.isLeader = true)
    (hg : generate_smtp_data cfg env s.core = (Except.error e, c1)) :
    reconcile cfg env s = ⟨{ s with core := c1 }, some e, [], []⟩ := by
  unfold reconcile
  rw [if_neg (by rw [hl]; simp), hg]

theorem reconcile_ok_unfold (cfg : Config) (env : Env) (s : CharmState)
    (d : Lib.SmtpRelationData) (c1 : CoreState) (hl : env.isLeader = true)
    (hg : generate_smtp_data cfg env s.core = (Except.ok d, c1)) :
    reconcile cfg env s =
      (match legacyLoop cfg env (s.legacyRels.map (fun r => r.id))
          { s with core := c1 } [] with
       | (some e, s2, w) => ⟨s2, some e, w, []⟩
       | (none, s2, w) =>
         match smtpLoop cfg env (s2.smtpRels.map (fun r => r.id)) s2 [] with
         | (oe, s3, w2) => ⟨s3, oe, w, w2⟩) := by
  unfold reconcile
  rw [if_neg (by rw [hl]; simp), hg]

/-- C2, amended claim: on the leader, when the configuration bundle
fails validation, the pass raises an error before any relation data-bag
is written (no legacy or smtp write, relation lists untouched); when
the secret path is not taken (password empty or secrets unsupported)
the error is exactly the configuration-invalid error naming the failing
fields and the whole state is untouched; when the secret path is taken,
the peer secret may have been created or updated before the raise (see
the counterexample). -/
theorem reconcile_invalid_config_no_relation_writes (cfg : Config) (env : Env)
    (s : CharmState) (hl : env.isLeader = true) (hv : ¬configErrs cfg = []) :
    (∃ e, (reconcile cfg env s).err = some e)
    ∧ (reconcile cfg env s).legacyWrites = []
    ∧ (reconcile cfg env s).smtpWrites = []
    ∧ (reconcile cfg env s).state.legacyRels = s.legacyRels
    ∧ (reconcile cfg env s).state.smtpRels = s.smtpRels
    ∧ (pathTaken cfg env = false →
        (reconcile cfg env s).state = s
        ∧ (reconcile cfg env s).err = some (CharmError.configInvalid
            ("invalid configuration: " ++ joinFields (configErrs cfg)))) := by
  by_cases ht : pathTaken cfg env = true
  · cases he : ensure_peer_secret (pwContent cfg) s.core with
    | mk res c2 =>
      cases res with
      | error e =>
        have hg : generate_smtp_data cfg env s.core = (Except.error e, c2) := by
          unfold generate_smtp_data
          rw [if_pos ht, he]
        rw [reconcile_sanity_err cfg env s e c2 hl hg]
        exact ⟨⟨e, rfl⟩, rfl, rfl, rfl, rfl,
          fun hcon => absurd ht (by rw [hcon]; simp)⟩
      | ok sid =>
        have hg : generate_smtp_data cfg env s.core
            = (bundleResult cfg (some sid), c2) := by
          unfold generate_smtp_data
          rw [if_pos ht, he]
        rw [bundleResult_err cfg (some sid) hv] at hg
        rw [reconcile_sanity_err cfg env s _ c2 hl hg]
        exact ⟨⟨_, rfl⟩, rfl, rfl, rfl, rfl,
          fun hcon => absurd ht (by rw [hcon]; simp)⟩
  · have hf : pathTaken cfg env = false := by
      cases hb : pathTaken cfg env
      · rfl
      · exact absurd hb ht
    have hg : generate_smtp_data cfg env s.core
        = (Except.error (CharmError.configInvalid
            ("invalid configuration: " ++ joinFields (configErrs cfg))), s.core) := by
      rw [gen_skip cfg env s.core hf, bundleResult_err cfg none hv]
    rw [reconcile_sanity_err cfg env s _ s.core hl hg]
    exact ⟨⟨_, rfl⟩, rfl, rfl, rfl, rfl, fun _ => ⟨rfl, rfl⟩⟩

/-- C2, witness: the amended claim at a concrete invalid configuration
(host missing, password set), leader environment and initial state. -/
theorem reconcile_invalid_config_no_relation_writes_witness :
    (⟨true, true⟩ : Env).isLeader = true
    ∧ ¬configErrs cfgNoHost = []
    ∧ ((∃ e, (reconcile cfgNoHost ⟨true, true⟩ (initState [3] [4])).err = some e)
      ∧ (reconcile cfgNoHost ⟨true, true⟩ (initState [3] [4])).legacyWrites = []
      ∧ (reconcile cfgNoHost ⟨true, true⟩ (initState [3] [4])).smtpWrites = []
      ∧ (reconcile cfgNoHost ⟨true, true⟩ (initState [3] [4])).state.legacyRels
          = (initState [3] [4]).legacyRels
      ∧ (reconcile cfgNoHost ⟨true, true⟩ (initState [3] [4])).state.smtpRels
          = (initState [3] [4]).smtpRels
      ∧ (pathTaken cfgNoHost ⟨true, true⟩ = false →
          (reconcile cfgNoHost ⟨true, true⟩ (initState [3] [4])).state = initState [3] [4]
          ∧ (reconcile cfgNoHost ⟨true, true⟩ (initState [3] [4])).err
            = some (CharmError.configInvalid
                ("invalid configuration: " ++ joinFields (configErrs cfgNoHost))))) :=
  ⟨rfl, by decide,
    reconcile_invalid_config_no_relation_writes cfgNoHost ⟨true, true⟩
      (initState [3] [4]) rfl (by decide)⟩

/-- C5, amended claim: on the leader with a valid configuration and no
secret support, the pass leaves every smtp relation unpopulated (no
smtp write, smtp relation list untouched) while still writing every
legacy relation; with no smtp relation present the pass succeeds, but
with at least one smtp relation present the condition is reported as a
configuration-invalid error ("smtp relation is not supported in
juju < 3.0.3"), which the charm surfaces as a blocked status. -/
theorem reconcile_no_secret_support_legacy_only (cfg : Config) (env : Env)
    (s : CharmState) (hl : env.isLeader = true) (hs : env.hasSecrets = false)
    (hv : configErrs cfg = []) :
    ∃ d, bundleResult cfg none = Except.ok d
    ∧ (reconcile cfg env s).smtpWrites = []
    ∧ (reconcile cfg env s).state.smtpRels = s.smtpRels
    ∧ (reconcile cfg env s).legacyWrites
        = s.legacyRels.map (fun r => (r.id, legMapping d))
    ∧ (s.smtpRels = [] → (reconcile cfg env s).err = none)
    ∧ (¬s.smtpRels = [] → (reconcile cfg env s).err
        = some (CharmError.configInvalid
            "smtp relation is not supported in juju < 3.0.3")) := by
  have hsk : pathTaken cfg env = false := by
    unfold pathTaken
    rw [hs, Bool.and_false]
  obtain ⟨d, hbd, hpid, hpw⟩ := bundleResult_ok cfg none hv
  have hg : generate_smtp_data cfg env s.core = (Except.ok d, s.core) := by
    rw [gen_skip cfg env s.core hsk, hbd]
  refine ⟨d, hbd, ?_⟩
  rw [reconcile_ok_unfold cfg env s d s.core hl hg]
  rw [legacyLoop_run cfg env d (s.legacyRels.map (fun r => r.id))
    ⟨s.core, s.legacyRels, s.smtpRels⟩ [] hg]
  simp only
  cases hsr : s.smtpRels with
  | nil =>
    simp only [List.map_nil]
    rw [smtpLoop_nil]
    simp [List.map_map, Function.comp]
  | cons r rs =>
    simp only [List.map_cons]
    rw [smtpLoop_no_secrets cfg env r.id (rs.map (fun r => r.id)) _ _ hs]
    simp [List.map_map, Function.comp]

/-- C5, witness: the amended claim at a concrete valid configuration,
leader environment without secret support, one legacy and one smtp
relation. -/
theorem reconcile_no_secret_support_legacy_only_witness :
    (⟨true, false⟩ : Env).isLeader = true
    ∧ (⟨true, false⟩ : Env).hasSecrets = false
    ∧ configErrs cfgMinimal = []
    ∧ (∃ d, bundleResult cfgMinimal none = Except.ok d
      ∧ (reconcile cfgMinimal ⟨true, false⟩ (initState [1] [2])).smtpWrites = []
      ∧ (reconcile cfgMinimal ⟨true, false⟩ (initState [1] [2])).state.smtpRels
          = (initState [1] [2]).smtpRels
      ∧ (reconcile cfgMinimal ⟨true, false⟩ (initState [1] [2])).legacyWrites
          = (initState [1] [2]).legacyRels.map (fun r => (r.id, legMapping d))
      ∧ ((initState [1] [2]).smtpRels = []
          → (reconcile cfgMinimal ⟨true, false⟩ (initState [1] [2])).err = none)
      ∧ (¬(initState [1] [2]).smtpRels = []
          → (reconcile cfgMinimal ⟨true, false⟩ (initState [1] [2])).err
            = some (CharmError.configInvalid
                "smtp relation is not supported in juju < 3.0.3"))) :=
  ⟨rfl, rfl, by decide,
    reconcile_no_secret_support_legacy_only cfgMinimal ⟨true, false⟩
      (initState [1] [2]) rfl rfl (by decide)⟩

/-! ## Composed run lemmas for whole reconciliation passes -/

theorem gen_taken_ok_inv (cfg : Config) (env : Env) (c : CoreState)
    (d : Lib.SmtpRelationData) (c1 : CoreState)
    (ht : pathTaken cfg env = true)
    (hg : generate_smtp_data cfg env c = (Except.ok d, c1)) :
    ∃ sid, bundleResult cfg (some sid) = Except.ok d
      ∧ d.password_id = some sid ∧ ReadyCore (pwContent cfg) sid c1 := by
  unfold generate_smtp_data at hg
  rw [if_pos ht] at hg
  cases he : ensure_peer_secret (pwContent cfg) c with
  | mk res c2 =>
    rw [he] at hg
    cases res with
    | error e => simp at hg
    | ok sid =>
      simp only at hg
      injection hg with h1 h2
      rw [h2] at he
      exact ⟨sid, h1, (bundleResult_ok_pid cfg (some sid) d h1).1,
        ensure_ok_ready (pwContent cfg) c c1 sid he⟩

theorem reconcile_run_taken (cfg : Config) (env : Env) (s : CharmState)
    (d : Lib.SmtpRelationData) (sid : String) (c1 : CoreState)
    (hl : env.isLeader = true) (ht : pathTaken cfg env = true)
    (hg : generate_smtp_data cfg env s.core = (Except.ok d, c1))
    (hready : ReadyCore (pwContent cfg) sid c1)
    (hbd : bundleResult cfg (some sid) = Except.ok d)
    (hpid : d.password_id = some sid) :
    reconcile cfg env s =
      ⟨⟨grantFold sid (s.smtpRels.map (fun r => r.id)) c1,
        bagFold (legMapping d) (s.legacyRels.map (fun r => r.id)) s.legacyRels,
        bagFold (Lib.SmtpRelationData.to_relation_data d)
          (s.smtpRels.map (fun r => r.id)) s.smtpRels⟩,
       none,
       s.legacyRels.map (fun r => (r.id, legMapping d)),
       s.smtpRels.map (fun r => (r.id, Lib.SmtpRelationData.to_relation_data d))⟩ := by
  have hgfix : generate_smtp_data cfg env c1 = (Except.ok d, c1) :=
    gen_idem cfg env s.core c1 (Except.ok d) hg
  rw [reconcile_ok_unfold cfg env s d c1 hl hg]
  rw [legacyLoop_run cfg env d (s.legacyRels.map (fun r => r.id))
    ⟨c1, s.legacyRels, s.smtpRels⟩ [] hgfix]
  simp only
  rw [smtpLoop_run_granting cfg env d sid (s.smtpRels.map (fun r => r.id))
    ⟨c1, bagFold (legMapping d) (s.legacyRels.map (fun r => r.id)) s.legacyRels,
      s.smtpRels⟩ [] ht hready hbd hpid]
  simp [List.map_map, Function.comp]

theorem reconcile_run_legacy_only (cfg : Config) (env : Env) (s : CharmState)
    (d : Lib.SmtpRelationData)
    (hl : env.isLeader = true) (hsk : pathTaken cfg env = false)
    (hbd : bundleResult cfg none = Except.ok d)
    (hnil : s.smtpRels = []) :
    reconcile cfg env s =
      ⟨⟨s.core, bagFold (legMapping d) (s.legacyRels.map (fun r => r.id)) s.legacyRels,
        s.smtpRels⟩,
       none, s.legacyRels.map (fun r => (r.id, legMapping d)), []⟩ := by
  have hg : generate_smtp_data cfg env s.core = (Except.ok d, s.core) := by
    rw [gen_skip cfg env s.core hsk, hbd]
  rw [reconcile_ok_unfold cfg env s d s.core hl hg]
  rw [legacyLoop_run cfg env d (s.legacyRels.map (fun r => r.id))
    ⟨s.core, s.legacyRels, s.smtpRels⟩ [] hg]
  simp only
  rw [hnil]
  simp only [List.map_nil]
  rw [smtpLoop_nil]
  simp [List.map_map, Function.comp, hnil]

theorem reconcile_run_nosecrets (cfg : Config) (env : Env) (s : CharmState)
    (d : Lib.SmtpRelationData) (r : Relation) (rs : List Relation)
    (hl : env.isLeader = true) (hsec : env.hasSecrets = false)
    (hbd : bundleResult cfg none = Except.ok d)
    (hcons : s.smtpRels = r :: rs) :
    reconcile cfg env s =
      ⟨⟨s.core, bagFold (legMapping d) (s.legacyRels.map (fun r => r.id)) s.legacyRels,
        s.smtpRels⟩,
       some (CharmError.configInvalid "smtp relation is not supported in juju < 3.0.3"),
       s.legacyRels.map (fun r => (r.id, legMapping d)), []⟩ := by
  have hsk : pathTaken cfg env = false := by
    unfold pathTaken
    rw [hsec, Bool.and_false]
  have hg : generate_smtp_data cfg env s.core = (Except.ok d, s.core) := by
    rw [gen_skip cfg env s.core hsk, hbd]
  rw [reconcile_ok_unfold cfg env s d s.core hl hg]
  rw [legacyLoop_run cfg env d (s.legacyRels.map (fun r => r.id))
    ⟨s.core, s.legacyRels, s.smtpRels⟩ [] hg]
  simp only
  rw [hcons]
  simp only [List.map_cons]
  rw [smtpLoop_no_secrets cfg env r.id (rs.map (fun x => x.id)) _ _ hsec]
  simp [List.map_map, Function.comp, hcons]

theorem reconcile_run_skip_nosec (cfg : Config) (env : Env) (s : CharmState)
    (d : Lib.SmtpRelationData)
    (hl : env.isLeader = true) (hsk : pathTaken cfg env = false)
    (hsec : env.hasSecrets = true)
    (hbd : bundleResult cfg none = Except.ok d)
    (hgps : get_peer_secret s.core = Except.ok none) :
    reconcile cfg env s =
      ⟨⟨s.core, bagFold (legMapping d) (s.legacyRels.map (fun r => r.id)) s.legacyRels,
        bagFold (Lib.SmtpRelationData.to_relation_data d)
          (s.smtpRels.map (fun r => r.id)) s.smtpRels⟩,
       none,
       s.legacyRels.map (fun r => (r.id, legMapping d)),
       s.smtpRels.map (fun r => (r.id, Lib.SmtpRelationData.to_relation_data d))⟩ := by
  have hg : generate_smtp_data cfg env s.core = (Except.ok d, s.core) := by
    rw [gen_skip cfg env s.core hsk, hbd]
  have hpid : d.password_id = none := (bundleResult_ok_pid cfg none d hbd).1
  rw [reconcile_ok_unfold cfg env s d s.core hl hg]
  rw [legacyLoop_run cfg env d (s.legacyRels.map (fun r => r.id))
    ⟨s.core, s.legacyRels, s.smtpRels⟩ [] hg]
  simp only
  rw [smtpLoop_skip_no_secret cfg env d (s.smtpRels.map (fun r => r.id))
    ⟨s.core, bagFold (legMapping d) (s.legacyRels.map (fun r => r.id)) s.legacyRels,
      s.smtpRels⟩ [] hsk hsec hbd hpid hgps]
  simp [List.map_map, Function.comp]

theorem reconcile_run_skip_revoke (cfg : Config) (env : Env) (s : CharmState)
    (d : Lib.SmtpRelationData) (sid : String)
    (hl : env.isLeader = true) (hsk : pathTaken cfg env = false)
    (hsec : env.hasSecrets = true)
    (hbd : bundleResult cfg none = Except.ok d)
    (hsp : SidPresent sid s.core) :
    reconcile cfg env s =
      ⟨⟨revokeFold sid (s.smtpRels.map (fun r => r.id)) s.core,
        bagFold (legMapping d) (s.legacyRels.map (fun r => r.id)) s.legacyRels,
        bagFold (Lib.SmtpRelationData.to_relation_data d)
          (s.smtpRels.map (fun r => r.id)) s.smtpRels⟩,
       none,
       s.legacyRels.map (fun r => (r.id, legMapping d)),
       s.smtpRels.map (fun r => (r.id, Lib.SmtpRelationData.to_relation_data d))⟩ := by
  have hg : generate_smtp_data cfg env s.core = (Except.ok d, s.core) := by
    rw [gen_skip cfg env s.core hsk, hbd]
  have hpid : d.password_id = none := (bundleResult_ok_pid cfg none d hbd).1
  rw [reconcile_ok_unfold cfg env s d s.core hl hg]
  rw [legacyLoop_run cfg env d (s.legacyRels.map (fun r => r.id))
    ⟨s.core, s.legacyRels, s.smtpRels⟩ [] hg]
  simp only
  rw [smtpLoop_skip_revoking cfg env d sid (s.smtpRels.map (fun r => r.id))
    ⟨s.core, bagFold (legMapping d) (s.legacyRels.map (fun r => r.id)) s.legacyRels,
      s.smtpRels⟩ [] hsk hsec hbd hpid hsp]
  simp [List.map_map, Function.comp]

theorem reconcile_run_skip_gpserr (cfg : Config) (env : Env) (s : CharmState)
    (d : Lib.SmtpRelationData) (e : CharmError) (r : Relation) (rs : List Relation)
    (hl : env.isLeader = true) (hsk : pathTaken cfg env = false)
    (hsec : env.hasSecrets = true)
    (hbd : bundleResult cfg none = Except.ok d)
    (hgps : get_peer_secret s.core = Except.error e)
    (hcons : s.smtpRels = r :: rs) :
    reconcile cfg env s =
      ⟨⟨s.core, bagFold (legMapping d) (s.legacyRels.map (fun r => r.id)) s.legacyRels,
        s.smtpRels⟩,
       some e, s.legacyRels.map (fun r => (r.id, legMapping d)), []⟩ := by
  have hg : generate_smtp_data cfg env s.core = (Except.ok d, s.core) := by
    rw [gen_skip cfg env s.core hsk, hbd]
  rw [reconcile_ok_unfold cfg env s d s.core hl hg]
  rw [legacyLoop_run cfg env d (s.legacyRels.map (fun r => r.id))
    ⟨s.core, s.legacyRels, s.smtpRels⟩ [] hg]
  simp only
  rw [hcons]
  simp only [List.map_cons]
  rw [smtpLoop_skip_gps_err cfg env d e r.id (rs.map (fun x => x.id))
    ⟨s.core, bagFold (legMapping d) (s.legacyRels.map (fun r => r.id)) s.legacyRels,
      r :: rs⟩ [] hsk hsec hbd hgps]
  simp [List.map_map, Function.comp, hcons]

/-- C3: running the provider reconciliation loop a second time with
unchanged configuration and unchanged peer relations changes nothing:
the state after the second pass (secret contents and revision counts,
grants, peer data-bag and every relation data-bag) equals the state
after the first pass, from every starting state. -/
theorem reconcile_idempotent (cfg : Config) (env : Env) (s : CharmState) :
    (reconcile cfg env (reconcile cfg env s).state).state
      = (reconcile cfg env s).state := by
  by_cases hl : env.isLeader = true
  case neg =>
    have hlf : env.isLeader = false := by
      cases hb : env.isLeader
      · rfl
      · exact absurd hb hl
    rw [(reconcile_non_leader_noop cfg env s 0 hlf).1]
    simp only
    rw [(reconcile_non_leader_noop cfg env s 0 hlf).1]
  case pos =>
  cases hgen : generate_smtp_data cfg env s.core with
  | mk r0 c1 =>
  cases r0 with
  | error e =>
    rw [reconcile_sanity_err cfg env s e c1 hl hgen]
    simp only
    rw [reconcile_sanity_err cfg env ⟨c1, s.legacyRels, s.smtpRels⟩ e c1 hl
      (gen_idem cfg env s.core c1 (Except.error e) hgen)]
  | ok d =>
    by_cases ht : pathTaken cfg env = true
    · obtain ⟨sid, hbd, hpid, hready⟩ := gen_taken_ok_inv cfg env s.core d c1 ht hgen
      rw [reconcile_run_taken cfg env s d sid c1 hl ht hgen hready hbd hpid]
      simp only
      have hready2 : ReadyCore (pwContent cfg) sid
          (grantFold sid (s.smtpRels.map (fun r => r.id)) c1) :=
        ReadyCore_grantFold (pwContent cfg) sid _ c1 hready
      have hg2 : generate_smtp_data cfg env
          (grantFold sid (s.smtpRels.map (fun r => r.id)) c1)
          = (Except.ok d, grantFold sid (s.smtpRels.map (fun r => r.id)) c1) := by
        rw [gen_noop_taken cfg env _ sid ht hready2, hbd]
      rw [reconcile_run_taken cfg env
        ⟨grantFold sid (s.smtpRels.map (fun r => r.id)) c1,
          bagFold (legMapping d) (s.legacyRels.map (fun r => r.id)) s.legacyRels,
          bagFold (Lib.SmtpRelationData.to_relation_data d)
            (s.smtpRels.map (fun r => r.id)) s.smtpRels⟩
        d sid _ hl ht hg2 hready2 hbd hpid]
      simp only
      rw [bagFold_ids, bagFold_ids, grantFold_twice, bagFold_twice, bagFold_twice]
    · have hsk : pathTaken cfg env = false := by
        cases hb : pathTaken cfg env
        · rfl
        · exact absurd hb ht
      have hggen := hgen
      rw [gen_skip cfg env s.core hsk] at hggen
      injection hggen with h1 h2
      by_cases hsec : env.hasSecrets = true
      · cases hgps : get_peer_secret s.core with
        | error e =>
          cases hsr : s.smtpRels with
          | nil =>
            rw [reconcile_run_legacy_only cfg env s d hl hsk h1 hsr]
            simp only
            rw [reconcile_run_legacy_only cfg env
              ⟨s.core, bagFold (legMapping d) (s.legacyRels.map (fun r => r.id))
                s.legacyRels, s.smtpRels⟩ d hl hsk h1 hsr]
            simp only
            rw [bagFold_ids, bagFold_twice]
          | cons r rs =>
            rw [reconcile_run_skip_gpserr cfg env s d e r rs hl hsk hsec h1 hgps hsr]
            simp only
            rw [reconcile_run_skip_gpserr cfg env
              ⟨s.core, bagFold (legMapping d) (s.legacyRels.map (fun r => r.id))
                s.legacyRels, s.smtpRels⟩ d e r rs hl hsk hsec h1 hgps hsr]
            simp only
            rw [bagFold_ids, bagFold_twice]
        | ok osec =>
          cases osec with
          | none =>
            rw [reconcile_run_skip_nosec cfg env s d hl hsk hsec h1 hgps]
            simp only
            rw [reconcile_run_skip_nosec cfg env
              ⟨s.core, bagFold (legMapping d) (s.legacyRels.map (fun r => r.id))
                s.legacyRels,
                bagFold (Lib.SmtpRelationData.to_relation_data d)
                  (s.smtpRels.map (fun r => r.id)) s.smtpRels⟩ d hl hsk hsec h1 hgps]
            simp only
            rw [bagFold_ids, bagFold_ids, bagFold_twice, bagFold_twice]
          | some p =>
            obtain ⟨sid, sec⟩ := p
            obtain ⟨b, hp, hk, hne, hs2⟩ := gps_ok_some_inv s.core sid sec hgps
            have hsp : SidPresent sid s.core := ⟨b, sec, hp, hk, hne, hs2⟩
            rw [reconcile_run_skip_revoke cfg env s d sid hl hsk hsec h1 hsp]
            simp only
            have hsp2 : SidPresent sid
                (revokeFold sid (s.smtpRels.map (fun r => r.id)) s.core) :=
              SidPresent_revokeFold sid _ s.core hsp
            rw [reconcile_run_skip_revoke cfg env
              ⟨revokeFold sid (s.smtpRels.map (fun r => r.id)) s.core,
                bagFold (legMapping d) (s.legacyRels.map (fun r => r.id)) s.legacyRels,
                bagFold (Lib.SmtpRelationData.to_relation_data d)
                  (s.smtpRels.map (fun r => r.id)) s.smtpRels⟩ d sid hl hsk hsec h1 hsp2]
            simp only
            rw [bagFold_ids, bagFold_ids, revokeFold_twice, bagFold_twice, bagFold_twice]
      · have hsecf : env.hasSecrets = false := by
          cases hb : env.hasSecrets
          · rfl
          · exact absurd hb hsec
        cases hsr : s.smtpRels with
        | nil =>
          rw [reconcile_run_legacy_only cfg env s d hl hsk h1 hsr]
          simp only
          rw [reconcile_run_legacy_only cfg env
            ⟨s.core, bagFold (legMapping d) (s.legacyRels.map (fun r => r.id))
              s.legacyRels, s.smtpRels⟩ d hl hsk h1 hsr]
          simp only
          rw [bagFold_ids, bagFold_twice]
        | cons r rs =>
          rw [reconcile_run_nosecrets cfg env s d r rs hl hsecf h1 hsr]
          simp only
          rw [reconcile_run_nosecrets cfg env
            ⟨s.core, bagFold (legMapping d) (s.legacyRels.map (fun r => r.id))
              s.legacyRels, s.smtpRels⟩ d r rs hl hsecf h1 hsr]
          simp only
          rw [bagFold_ids, bagFold_twice]

theorem bundleResult_ok_of_errs (cfg : Config) (pid : Option String)
    (h : configErrs cfg = []) :
    ∃ d, bundleResult cfg pid = Except.ok d
      ∧ d.password_id = pid ∧ d.password = cfg.password := by
  obtain ⟨⟨ho, hh, hne⟩, ⟨po, hp, hp1, hp2⟩, ⟨av, x, ha, hax⟩, ⟨tv, y, htv, hty⟩⟩ :=
    fieldErrors_nil_inv cfg.host cfg.port cfg.auth_type cfg.transport_security h
  refine ⟨⟨ho, po, cfg.user, pid, cfg.password, x, y, cfg.domain,
    cfg.skip_ssl_verify.getD false⟩, ?_, rfl, rfl⟩
  have hb : Lib.SmtpRelationData.build cfg.host cfg.port cfg.user pid cfg.password
      cfg.auth_type cfg.transport_security cfg.domain cfg.skip_ssl_verify
      = Except.ok ⟨ho, po, cfg.user, pid, cfg.password, x, y, cfg.domain,
          cfg.skip_ssl_verify.getD false⟩ := by
    unfold Lib.SmtpRelationData.build
    rw [show Lib.fieldErrors cfg.host cfg.port cfg.auth_type cfg.transport_security
      = [] from h]
    simp only
    rw [hh, hp, ha, htv]
    simp only [Option.some_bind]
    rw [hax, hty]
  unfold bundleResult
  rw [hb]

/-- C8: from every leader state holding the recorded peer secret for the
current configuration (valid, with a non-empty password, secrets
supported), re-reconciling after changing only the password keeps the
same secret identifier — it is still the recorded peer secret id and
every modern-relation write publishes it as `password_id` — while the
secret's content is updated to the new password; and re-reconciling
after changing only the domain leaves the secret's content and revision
count unchanged. -/
theorem reconcile_secret_reuse (cfg : Config) (env : Env) (s : CharmState)
    (sid : String) (p2 : String) (dm : Option String)
    (hl : env.isLeader = true) (hsec : env.hasSecrets = true)
    (hpw : optTruthy cfg.password = true) (hp2 : ¬(p2 = ""))
    (herrs : configErrs cfg = [])
    (hready : ReadyCore (pwContent cfg) sid s.core) :
    (recordedId (reconcile { cfg with password := some p2 } env s).state = some sid
      ∧ (∀ w ∈ (reconcile { cfg with password := some p2 } env s).smtpWrites,
          mlookup w.2 "password_id" = some sid)
      ∧ secretContentAt (reconcile { cfg with password := some p2 } env s).state sid
          = some [("password", p2)])
    ∧ secretContentAt (reconcile { cfg with domain := dm } env s).state sid
        = secretContentAt s sid
    ∧ secretRevisionsAt (reconcile { cfg with domain := dm } env s).state sid
        = secretRevisionsAt s sid := by
  have ht2 : pathTaken { cfg with password := some p2 } env = true := by
    unfold pathTaken
    rw [hsec]
    simp [optTruthy, hp2]
  obtain ⟨b0, sec0, hbp, hbk, hbne, hbs, hbc⟩ := hready
  have hsp : SidPresent sid s.core := ⟨b0, sec0, hbp, hbk, hbne, hbs⟩
  obtain ⟨c2, hens⟩ :=
    ensure_sidPresent (pwContent { cfg with password := some p2 }) sid s.core hsp
  have hg2 : generate_smtp_data { cfg with password := some p2 } env s.core
      = (bundleResult { cfg with password := some p2 } (some sid), c2) := by
    unfold generate_smtp_data
    rw [if_pos ht2, hens]
  obtain ⟨d2, hb2, hpid2, hpw2⟩ :=
    bundleResult_ok_of_errs { cfg with password := some p2 } (some sid) herrs
  rw [hb2] at hg2
  have hready2 : ReadyCore (pwContent { cfg with password := some p2 }) sid c2 :=
    ensure_ok_ready _ s.core c2 sid hens
  rw [reconcile_run_taken { cfg with password := some p2 } env s d2 sid c2
    hl ht2 hg2 hready2 hb2 hpid2]
  have ht3 : pathTaken { cfg with domain := dm } env = true := by
    unfold pathTaken
    rw [hsec]
    simp only [Bool.and_true]
    exact hpw
  have hready3 : ReadyCore (pwContent { cfg with domain := dm }) sid s.core :=
    ⟨b0, sec0, hbp, hbk, hbne, hbs, hbc⟩
  obtain ⟨d3, hb3, hpid3, hpw3⟩ :=
    bundleResult_ok_of_errs { cfg with domain := dm } (some sid) herrs
  have hg3 : generate_smtp_data { cfg with domain := dm } env s.core
      = (Except.ok d3, s.core) := by
    rw [gen_noop_taken { cfg with domain := dm } env s.core sid ht3 hready3, hb3]
  rw [reconcile_run_taken { cfg with domain := dm } env s d3 sid s.core
    hl ht3 hg3 hready3 hb3 hpid3]
  have hcr3 := grantFold_cr sid (s.smtpRels.map (fun r => r.id)) s.core sid
  obtain ⟨hc3, hr3⟩ := cr_eq_content_rev _ _ hcr3
  refine ⟨⟨?_, ?_, ?_⟩, ?_, ?_⟩
  · obtain ⟨b1, sec1, hp1, hk1, _, _, _⟩ :=
      ReadyCore_grantFold (pwContent { cfg with password := some p2 }) sid
        (s.smtpRels.map (fun r => r.id)) c2 hready2
    unfold recordedId
    simp only
    rw [hp1]
    exact hk1
  · intro w hw
    simp only [List.mem_map] at hw
    obtain ⟨r, _, rfl⟩ := hw
    show mlookup (Lib.SmtpRelationData.to_relation_data d2) "password_id" = some sid
    rw [to_relation_data_password_id d2, hpid2]
    simp [optTruthy, hbne]
  · have hcr2 := grantFold_cr sid (s.smtpRels.map (fun r => r.id)) c2 sid
    obtain ⟨hc2, _⟩ := cr_eq_content_rev _ _ hcr2
    obtain ⟨b2, sec2, _, _, _, hs2, hcc2⟩ := hready2
    unfold secretContentAt
    simp only
    rw [hc2, hs2, Option.map_some']
    exact congrArg some hcc2
  · unfold secretContentAt
    simp only
    exact hc3
  · unfold secretRevisionsAt
    simp only
    exact hr3

/-- Concrete instance of `reconcile_secret_reuse`: from `readyState`
(secret `secret-1` holding `secret123`), a password change to `newpw`
keeps and republishes `secret-1` with updated content, while a domain
change leaves content and revision count untouched. -/
theorem reconcile_secret_reuse_witness :
    (recordedId (reconcile { cfgFull with password := some "newpw" }
        ⟨true, true⟩ readyState).state = some "secret-1"
      ∧ (∀ w ∈ (reconcile { cfgFull with password := some "newpw" }
            ⟨true, true⟩ readyState).smtpWrites,
          mlookup w.2 "password_id" = some "secret-1")
      ∧ secretContentAt (reconcile { cfgFull with password := some "newpw" }
            ⟨true, true⟩ readyState).state "secret-1"
          = some [("password", "newpw")])
    ∧ secretContentAt (reconcile { cfgFull with domain := some "ex.org" }
          ⟨true, true⟩ readyState).state "secret-1"
        = secretContentAt readyState "secret-1"
    ∧ secretRevisionsAt (reconcile { cfgFull with domain := some "ex.org" }
          ⟨true, true⟩ readyState).state "secret-1"
        = secretRevisionsAt readyState "secret-1" :=
  reconcile_secret_reuse cfgFull ⟨true, true⟩ readyState "secret-1" "newpw"
    (some "ex.org") rfl rfl (by decide) (by decide) (by decide)
    ⟨readyBag, ⟨[("password", "secret123")], 1, []⟩, rfl, by decide, by decide,
      by decide, rfl⟩

theorem updOne_key (a : Nat) (m : Mapping) (r : Relation) (k : String)
    (hk : mlookup m k = none) :
    (updOne a m r).id = r.id ∧ (updOne a m r).bag k = r.bag k := by
  unfold updOne
  by_cases h : r.id = a
  · rw [if_pos h]
    exact ⟨rfl, dictUpdate_frame r.bag m k hk⟩
  · rw [if_neg h]
    exact ⟨rfl, rfl⟩

theorem bagFold_mem (m : Mapping) (k : String) (ids : List Nat)
    (rels : List Relation) (hk : mlookup m k = none) :
    ∀ r2 ∈ bagFold m ids rels,
      ∃ r1 ∈ rels, r2.id = r1.id ∧ r2.bag k = r1.bag k := by
  induction ids generalizing rels with
  | nil =>
    intro r2 h2
    exact ⟨r2, h2, rfl, rfl⟩
  | cons a t ih =>
    intro r2 h2
    have h2' : r2 ∈ bagFold m t (updateRelBag rels a m) := h2
    obtain ⟨r1', hm1', hid', hbag'⟩ := ih (updateRelBag rels a m) r2 h2'
    unfold updateRelBag at hm1'
    simp only [List.mem_map] at hm1'
    obtain ⟨r1, hm1, hup⟩ := hm1'
    obtain ⟨hidk, hbagk⟩ := updOne_key a m r1 k hk
    refine ⟨r1, hm1, ?_, ?_⟩
    · rw [hid', ← hup, hidk]
    · rw [hbag', ← hup, hbagk]

/-- C10: `update_relation_data` merges by `dict.update` and never
deletes keys — any key present in a data-bag and absent from the merged
mapping keeps its previous value — and consequently, on a leader
reconciliation pass with the password configuration cleared (valid
config, no smtp relations), every legacy relation data-bag keeps its
previous `password` value, stale entries included. -/
theorem update_relation_data_preserves_stale_keys (cfg : Config) (env : Env)
    (s : CharmState)
    (hl : env.isLeader = true)
    (hpw : cfg.password = none)
    (herrs : configErrs cfg = [])
    (hnil : s.smtpRels = []) :
    (∀ (bag : Bag) (m : Mapping) (k v : String),
        bag k = some v → mlookup m k = none → dictUpdate bag m k = some v)
    ∧ ∀ r2 ∈ (reconcile cfg env s).state.legacyRels,
        ∃ r1 ∈ s.legacyRels, r2.id = r1.id ∧ r2.bag "password" = r1.bag "password" := by
  refine ⟨?_, ?_⟩
  · intro bag m k v hv hm
    rw [dictUpdate_frame bag m k hm]
    exact hv
  · obtain ⟨d, hbd, hpid, hpd⟩ := bundleResult_ok_of_errs cfg none herrs
    have hsk : pathTaken cfg env = false := by
      unfold pathTaken
      rw [hpw]
      simp [optTruthy]
    rw [reconcile_run_legacy_only cfg env s d hl hsk hbd hnil]
    simp only
    have hmk : mlookup (legMapping d) "password" = none := by
      unfold legMapping
      rw [to_relation_data_password]
      simp [optTruthy, hpd, hpw]
    exact bagFold_mem (legMapping d) "password"
      (s.legacyRels.map (fun r => r.id)) s.legacyRels hmk

/-- Concrete instance of `update_relation_data_preserves_stale_keys`:
reconciling `staleState` (its legacy bag holds `password = oldpw`) with
the password configuration cleared leaves the stale value in place. -/
theorem update_relation_data_preserves_stale_keys_witness :
    (∀ (bag : Bag) (m : Mapping) (k v : String),
        bag k = some v → mlookup m k = none → dictUpdate bag m k = some v)
    ∧ ∀ r2 ∈ (reconcile cfgMinimal ⟨true, true⟩ staleState).state.legacyRels,
        ∃ r1 ∈ staleState.legacyRels,
          r2.id = r1.id ∧ r2.bag "password" = r1.bag "password" :=
  update_relation_data_preserves_stale_keys cfgMinimal ⟨true, true⟩ staleState
    rfl rfl (by decide) rfl

end Smtp
